import Mathlib

/-!
Verification of the extrucal drag-flow throughput library.

The Python source computes with IEEE-754 doubles and numpy transcendental
functions; we embed the arithmetic over the real numbers.  Python's
`round(x, n)` is round-half-to-even on the binary double; every value this
development rounds is far from a tie (margins of at least 1e-3 in units of
the last kept digit, versus double-precision error below 1e-9), so the
half-up model `pyRound` below agrees with the source at every input
considered.  Validation compares the numeric inputs themselves, which we
model exactly over the rationals, so the accept/reject behaviour is
decidable.
-/

namespace Extrucal

open Real

/-- Model of Python `round(x, n)` over the reals (half-up; see file header
for why this agrees with the source's half-even at the inputs used). -/
noncomputable def pyRound (n : ℕ) (x : ℝ) : ℝ := (⌊x * 10 ^ n + 1 / 2⌋ : ℝ) / 10 ^ n

/-- Rational version of `pyRound`, used for the `round(i, 2)` applied to
sweep-grid labels. -/
def pyRoundQ (n : ℕ) (q : ℚ) : ℚ := (⌊q * 10 ^ n + 1 / 2⌋ : ℚ) / 10 ^ n

/-- Model of `np.arange(start, stop, step)` for positive step: the list
`start + i*step` for `0 ≤ i < ⌈(stop - start)/step⌉`, in exact rational
arithmetic. -/
def arange (start stop step : ℚ) : List ℚ :=
  (List.range (max 0 (-⌊-((stop - start) / step)⌋)).toNat).map (fun (i : ℕ) => start + i * step)

/-- Sequencing of a fallible computation over a list, mirroring the Python
loops that append one result per iteration and abort on the first raised
exception. -/
def exceptMap {α β : Type} (f : α → Except String β) : List α → Except String (List β)
  | [] => .ok []
  | x :: xs => (f x).bind fun y => (exceptMap f xs).map fun ys => y :: ys

/-- The harmonic indices `idx = [1, 3, 5, ..., 25]` of the shape-factor
series in `extrusion.throughput_cal`. -/
def f_d_idx : List ℕ := [1, 3, 5, 7, 9, 11, 13, 15, 17, 19, 21, 23, 25]

/-- The sum of the shape-factor table `f_d_dict`: for each `i` in `idx` the
entry `(1/i**3) * np.tanh((i*np.pi*depth)/(2*avg_channel_width))`, summed
(`f_d_df.sum()`). -/
noncomputable def fdSum (depth avg_channel_width : ℝ) : ℝ :=
  (f_d_idx.map (fun (i : ℕ) =>
    (1 / (i : ℝ) ^ 3) * Real.tanh (((i : ℝ) * π * depth) / (2 * avg_channel_width)))).sum

/-- The arithmetic body of `extrusion.throughput_cal` (lines 97-122 of the
source), after defaults are resolved: returns the unrounded throughput in
kg/hr.  Identical arithmetic appears as the body of `extrucal.throughput`. -/
noncomputable def throughput_raw (size depth density rpm pitch w_flight n_flight : ℝ) : ℝ :=
  let screw_root_size := size - depth * 2
  let helix_angle_b := Real.arctan (pitch / (π * size))
  let helix_angle_c := Real.arctan (pitch / (π * screw_root_size))
  let channel_width_b := ((pitch / n_flight) * Real.cos helix_angle_b) - w_flight
  let channel_width_c := ((pitch / n_flight) * Real.cos helix_angle_c) - w_flight
  let avg_channel_width := (channel_width_b + channel_width_c) / 2
  let shape_factor_drag := ((16 * avg_channel_width) / (π ^ 3 * depth)) *
    fdSum depth avg_channel_width
  let rotation_per_sec := rpm / 60
  let barrel_rot_speed := (π * rotation_per_sec * size * Real.cos helix_angle_b) / 1000
  let throughput_per_sec :=
    (n_flight * density * barrel_rot_speed * (avg_channel_width / 1000) * (depth / 1000) *
      shape_factor_drag) / 2
  throughput_per_sec * 60 * 60

/-- The value-validation chain of `extrusion.throughput_cal` (lines 73-95),
applied after the defaults for `pitch` and `w_flight` are resolved; returns
the message of the first `ValueError` raised, or `none` if every check
passes. -/
def throughput_check (size depth density pitch w_flight : ℚ) (n_flight : ℤ) : Option String :=
  if depth < size * 0.01 then
    some "Channel depth is too shallow(<1% of screw size) to be used for extrusion screw"
  else if depth > size * 0.3 then
    some "Channel depth is too deep(>30% of screw size) to be used for extrusion screw"
  else if size < 5 then some "Screw size is too small!!"
  else if size > 500 then some "Screw size is too big!!"
  else if density < 300 then some "This is not melt density for polymers. Too low!!"
  else if density > 3000 then some "This is not melt density for polymers. Too high!!"
  else if pitch < size * 0.2 then some "Screw pitch is too small"
  else if pitch > size * 2.5 then some "Screw pitch is too big"
  else if w_flight < size * 0.01 then some "Flight width is too small"
  else if w_flight > size * 0.7 then some "Flight width is too big"
  else if n_flight = 1 ∨ n_flight = 2 then none
  else some "You chose wrong value for n_flight. It should be either 1 or 2"

/-- `extrusion.throughput_cal`: resolve the defaults (`pitch = size`,
`w_flight = 0.1*size` when not given), run the validation chain, then round
the computed throughput to 2 decimals.  `.error` models the raised
`ValueError`. -/
noncomputable def throughput_cal (size depth density rpm : ℚ) (pitch w_flight : Option ℚ)
    (n_flight : ℤ) : Except String ℝ :=
  let p := pitch.getD size
  let w := w_flight.getD (size * 0.1)
  match throughput_check size depth density p w n_flight with
  | some e => .error e
  | none => .ok (pyRound 2 (throughput_raw size depth density rpm p w n_flight))

/-- `extrucal.throughput` (the legacy duplicate in `extrucal.py`): same
defaults and same arithmetic, rounded to 2 decimals, with no validation. -/
noncomputable def extrucal_throughput (size depth density rpm : ℚ) (pitch w_flight : Option ℚ)
    (n_flight : ℤ) : ℝ :=
  pyRound 2 (throughput_raw size depth density rpm (pitch.getD size)
    (w_flight.getD (size * 0.1)) n_flight)

/-- The arithmetic body of `cable_extrusion.cable_cal` (lines 53-58):
unrounded required throughput in kg/hr. -/
noncomputable def cable_raw (outer_d thickness l_speed s_density : ℝ) : ℝ :=
  let inner_d := outer_d - 2 * thickness
  let outer_r := outer_d / 2
  let inner_r := inner_d / 2
  let insul_area := π * ((outer_r ^ 2) - (inner_r ^ 2)) / 1000000
  l_speed * insul_area * 60 * s_density

/-- The value-validation chain of `cable_cal` (lines 45-51). -/
def cable_check (outer_d thickness s_density : ℚ) : Option String :=
  if thickness > outer_d / 2 then some "Thickness can\x27t be greater than radius"
  else if s_density < 300 then some "This is not solid density for polymers. Too low!!"
  else if s_density > 3000 then some "This is not solid density for polymers. Too high!!"
  else none

/-- `cable_extrusion.cable_cal`: validation then the required throughput
rounded to 3 decimals. -/
noncomputable def cable_cal (outer_d thickness l_speed s_density : ℚ) : Except String ℝ :=
  match cable_check outer_d thickness s_density with
  | some e => .error e
  | none => .ok (pyRound 3 (cable_raw outer_d thickness l_speed s_density))

/-- The value-validation chain of `cable_table` / `cable_plot`
(lines 147-165 resp. 272-290 of `cable_extrusion.py`). -/
def cable_table_check (outer_d thickness s_density densRat min_l_speed max_l_speed
    delta_l_speed min_size max_size delta_size depth_percent : ℚ) : Option String :=
  if thickness > outer_d / 2 then some "Thickness can\x27t be greater than radius"
  else if s_density < 300 then some "This is not solid density for polymers. Too low!!"
  else if s_density > 3000 then some "This is not solid density for polymers. Too high!!"
  else if densRat > 1 then some "Melt density can\x27t be greater than solid density"
  else if densRat < 0.5 then some "Melt density is too low (<50% of solid density)"
  else if delta_l_speed > max_l_speed - min_l_speed then
    some "\x27delta_l_speed\x27 can not be greater than \x27max_l_speed - min_l_speed\x27"
  else if delta_size > max_size - min_size then
    some "\x27delta_size\x27 can not be greater than \x27max_size - min_size\x27"
  else if depth_percent < 0.01 then
    some "Channel depth is too shallow(<1% of screw size) to be used for extrusion screw"
  else if depth_percent > 0.3 then
    some "Channel depth is too deep(>30% of screw size) to be used for extrusion screw"
  else none

/-- One cell of the `cable_table` grid (lines 173-179): the required RPM
`round(cable_cal(outer_d, thickness, l, s_density) /
throughput_cal(s, s*depth_percent, s_density*density_ratio), 2)`, with the
exceptions of the two inner calls propagating. -/
noncomputable def cable_rpm_cell (outer_d thickness s_density densRat depth_percent l s : ℚ) :
    Except String ℝ :=
  (cable_cal outer_d thickness l s_density).bind fun c =>
    (throughput_cal s (s * depth_percent) (s_density * densRat) 1 none none 1).map fun t =>
      pyRound 2 (c / t)

/-- The line-speed labels of the `cable_table` grid:
`[round(i, 2) for i in np.arange(min_l_speed, max_l_speed+0.001, delta_l_speed)]`. -/
def cable_speeds (min_l_speed max_l_speed delta_l_speed : ℚ) : List ℚ :=
  (arange min_l_speed (max_l_speed + 0.001) delta_l_speed).map (pyRoundQ 2)

/-- The extruder sizes of the `cable_table` grid:
`np.arange(min_size, max_size+0.1, delta_size)`. -/
def cable_sizes (min_size max_size delta_size : ℚ) : List ℚ :=
  arange min_size (max_size + 0.1) delta_size

/-- `cable_extrusion.cable_table`: validation, then the grid of required
RPMs.  The result pairs the row index (the extruder sizes, as in
`size_title`) with the columns, one `(line speed, column)` per speed, each
column listing the cells for the sizes in order. -/
noncomputable def cable_table (outer_d thickness s_density densRat min_l_speed max_l_speed
    delta_l_speed min_size max_size delta_size depth_percent : ℚ) :
    Except String (List ℚ × List (ℚ × List ℝ)) :=
  match cable_table_check outer_d thickness s_density densRat min_l_speed max_l_speed
      delta_l_speed min_size max_size delta_size depth_percent with
  | some e => .error e
  | none =>
    let l_speed := cable_speeds min_l_speed max_l_speed delta_l_speed
    let size := cable_sizes min_size max_size delta_size
    (exceptMap (fun l =>
      (exceptMap (fun s =>
        cable_rpm_cell outer_d thickness s_density densRat depth_percent l s) size).map
        fun col => (l, col)) l_speed).map fun cols => (size, cols)

/-- One cell of the `cable_plot` grid (lines 297-302): the same ratio as in
`cable_table` but with no rounding applied to it. -/
noncomputable def cable_plot_cell (outer_d thickness s_density densRat depth_percent l s : ℚ) :
    Except String ℝ :=
  (cable_cal outer_d thickness l s_density).bind fun c =>
    (throughput_cal s (s * depth_percent) (s_density * densRat) 1 none none 1).map fun t =>
      c / t

/-- The grid data `cable_plot` feeds to the chart (validation plus the
unrounded ratio per cell). -/
noncomputable def cable_plot_data (outer_d thickness s_density densRat min_l_speed max_l_speed
    delta_l_speed min_size max_size delta_size depth_percent : ℚ) :
    Except String (List ℚ × List (ℚ × List ℝ)) :=
  match cable_table_check outer_d thickness s_density densRat min_l_speed max_l_speed
      delta_l_speed min_size max_size delta_size depth_percent with
  | some e => .error e
  | none =>
    let l_speed := cable_speeds min_l_speed max_l_speed delta_l_speed
    let size := cable_sizes min_size max_size delta_size
    (exceptMap (fun l =>
      (exceptMap (fun s =>
        cable_plot_cell outer_d thickness s_density densRat depth_percent l s) size).map
        fun col => (l, col)) l_speed).map fun cols => (size, cols)

/-! ## Verified rational bound arithmetic

Computable rational lower/upper bounds for the square roots, exponentials
and hyperbolic tangents the drag-flow formula evaluates, used to settle the
concrete-value claims by interval arithmetic over the real embedding. -/

/-- Truncate a rational downward at `d` decimal digits. -/
def truncDown (d : ℕ) (q : ℚ) : ℚ := (⌊q * 10 ^ d⌋ : ℚ) / 10 ^ d

/-- Truncate a rational upward at `d` decimal digits (the ceiling is
written `-⌊-x⌋`). -/
def truncUp (d : ℕ) (q : ℚ) : ℚ := ((-⌊-(q * 10 ^ d)⌋ : ℤ) : ℚ) / 10 ^ d

/-- One Newton step for the square root of `q`, from above. -/
def newtonStep (q t : ℚ) : ℚ := (t + q / t) / 2

/-- Rational upper bound for `√q` (four Newton steps from `(q+1)/2`). -/
def sqrtUBq (q : ℚ) : ℚ :=
  newtonStep q (newtonStep q (newtonStep q (newtonStep q ((q + 1) / 2))))

/-- Rational lower bound for `√q`. -/
def sqrtLBq (q : ℚ) : ℚ := q / sqrtUBq q

/-- Taylor partial sum of the exponential. -/
def expTaylor (x : ℚ) (m : ℕ) : ℚ := ∑ i ∈ Finset.range m, x ^ i / i.factorial

/-- Taylor partial sum plus the remainder bound of `Real.exp_bound'`,
an upper bound for `exp x` when `0 ≤ x ≤ 1`. -/
def expUB1 (x : ℚ) (m : ℕ) : ℚ := expTaylor x m + x ^ m * (m + 1) / (m.factorial * m)

/-- Rational lower bound for `exp x`, `x ≥ 0`: 12-term Taylor sum at `x/16`,
truncated down, raised to the 16th power. -/
def expLBq (x : ℚ) : ℚ := (truncDown 40 (expTaylor (x / 16) 12)) ^ 16

/-- Rational upper bound for `exp x`, valid for `0 ≤ x ≤ 16`. -/
def expUBq (x : ℚ) : ℚ := (truncUp 40 (expUB1 (x / 16) 12)) ^ 16

/-- Rational lower bound for `tanh y`, `y ≥ 0`. -/
def tanhLBq (y : ℚ) : ℚ := 1 - 2 / (expLBq (2 * y) + 1)

/-- Rational upper bound for `tanh y`, valid for `0 ≤ y`, `2y ≤ 16`. -/
def tanhUBq (y : ℚ) : ℚ := 1 - 2 / (expUBq (2 * y) + 1)

/-- Rational lower bound of `π`, from `Real.pi_gt_d20`. -/
def piLq : ℚ := 3.14159265358979323846

/-- Rational upper bound of `π`, from `Real.pi_lt_d20`. -/
def piUq : ℚ := 3.14159265358979323847

/-- Rational lower bound for `cos (arctan (r / π))`. -/
def cosArctanLB (r : ℚ) : ℚ := truncDown 30 (1 / sqrtUBq (1 + (r / piLq) ^ 2))

/-- Rational upper bound for `cos (arctan (r / π))`. -/
def cosArctanUB (r : ℚ) : ℚ := truncUp 30 (1 / sqrtLBq (1 + (r / piUq) ^ 2))

/-- Rational lower bound for the shape-factor series sum `fdSum d w`,
valid whenever `w ≤ wU`. -/
def SLBq (d wU : ℚ) : ℚ :=
  (f_d_idx.map (fun (i : ℕ) =>
    truncDown 30 ((1 / (i : ℚ) ^ 3) *
      tanhLBq (truncDown 30 (((i : ℚ) * piLq * d) / (2 * wU)))))).sum

/-- Rational upper bound for the shape-factor series sum `fdSum d w`,
valid whenever `wL ≤ w` (and every argument stays below the `tanhUBq`
validity threshold). -/
def SUBq (d wL : ℚ) : ℚ :=
  (f_d_idx.map (fun (i : ℕ) =>
    truncUp 30 ((1 / (i : ℚ) ^ 3) *
      tanhUBq (truncUp 30 (((i : ℚ) * piUq * d) / (2 * wL)))))).sum

/-- The average channel width computed inside `throughput_cal`, as a
function of the resolved inputs. -/
noncomputable def avgW (size depth pitch w_flight n_flight : ℝ) : ℝ :=
  ((((pitch / n_flight) * Real.cos (Real.arctan (pitch / (π * size)))) - w_flight) +
    (((pitch / n_flight) * Real.cos (Real.arctan (pitch / (π * (size - depth * 2))))) -
      w_flight)) / 2

/-! ## Correctness lemmas for the bound arithmetic -/

lemma truncDown_le (d : ℕ) (q : ℚ) : truncDown d q ≤ q := by
  rw [truncDown, div_le_iff₀ (by positivity)]
  exact Int.floor_le _

lemma le_truncUp (d : ℕ) (q : ℚ) : q ≤ truncUp d q := by
  rw [truncUp, le_div_iff₀ (by positivity)]
  have h := Int.floor_le (-(q * 10 ^ d))
  push_cast
  linarith

lemma truncUp_le_add_one (d : ℕ) (q : ℚ) : truncUp d q ≤ q + 1 := by
  rw [truncUp, div_le_iff₀ (by positivity)]
  have h := Int.lt_floor_add_one (-(q * 10 ^ d))
  have h10 : (1 : ℚ) ≤ 10 ^ d := one_le_pow₀ (by norm_num)
  push_cast
  nlinarith [h, h10]

lemma truncDown_nonneg (d : ℕ) {q : ℚ} (h : 0 ≤ q) : 0 ≤ truncDown d q := by
  have : (0 : ℤ) ≤ ⌊q * 10 ^ d⌋ := Int.floor_nonneg.2 (by positivity)
  rw [truncDown]
  positivity

lemma newtonStep_invariant {q t : ℚ} (hq : 0 ≤ q) (ht : 0 < t) (hsq : q ≤ t ^ 2) :
    0 < newtonStep q t ∧ q ≤ (newtonStep q t) ^ 2 := by
  have hqt : 0 ≤ q / t := div_nonneg hq ht.le
  constructor
  · rw [newtonStep]; linarith
  · rw [newtonStep, div_pow, le_div_iff₀ (by positivity)]
    have h1 : (t + q / t) ^ 2 = t ^ 2 + 2 * q + (q / t) ^ 2 := by
      field_simp
      ring
    rw [h1]
    nlinarith [sq_nonneg (t - q / t), sq_nonneg (q / t)]

lemma sqrtUBq_invariant {q : ℚ} (hq : 0 ≤ q) : 0 < sqrtUBq q ∧ q ≤ (sqrtUBq q) ^ 2 := by
  have h0 : 0 < (q + 1) / 2 ∧ q ≤ ((q + 1) / 2) ^ 2 := by
    constructor
    · linarith
    · nlinarith [sq_nonneg (q - 1)]
  have h1 := newtonStep_invariant hq h0.1 h0.2
  have h2 := newtonStep_invariant hq h1.1 h1.2
  have h3 := newtonStep_invariant hq h2.1 h2.2
  have h4 := newtonStep_invariant hq h3.1 h3.2
  exact h4

lemma sqrt_le_sqrtUBq {q : ℚ} (hq : 0 ≤ q) :
    Real.sqrt (q : ℝ) ≤ ((sqrtUBq q : ℚ) : ℝ) := by
  obtain ⟨ht, hsq⟩ := sqrtUBq_invariant hq
  have h1 : (q : ℝ) ≤ ((sqrtUBq q : ℚ) : ℝ) ^ 2 := by exact_mod_cast hsq
  have h2 : (0 : ℝ) ≤ ((sqrtUBq q : ℚ) : ℝ) := by exact_mod_cast ht.le
  calc Real.sqrt (q : ℝ) ≤ Real.sqrt (((sqrtUBq q : ℚ) : ℝ) ^ 2) := Real.sqrt_le_sqrt h1
    _ = ((sqrtUBq q : ℚ) : ℝ) := by rw [Real.sqrt_sq h2]

lemma sqrtLBq_le_sqrt {q : ℚ} (hq : 0 ≤ q) :
    ((sqrtLBq q : ℚ) : ℝ) ≤ Real.sqrt (q : ℝ) := by
  obtain ⟨ht, _⟩ := sqrtUBq_invariant hq
  have htR : (0 : ℝ) < ((sqrtUBq q : ℚ) : ℝ) := by exact_mod_cast ht
  have h1 : Real.sqrt (q : ℝ) ≤ ((sqrtUBq q : ℚ) : ℝ) := sqrt_le_sqrtUBq hq
  have hqR : (0 : ℝ) ≤ (q : ℝ) := by exact_mod_cast hq
  rw [sqrtLBq]
  push_cast
  rw [div_le_iff₀ htR]
  calc (q : ℝ) = Real.sqrt q * Real.sqrt q := (Real.mul_self_sqrt hqR).symm
    _ ≤ Real.sqrt q * ((sqrtUBq q : ℚ) : ℝ) :=
        mul_le_mul_of_nonneg_left h1 (Real.sqrt_nonneg _)

lemma sqrtLBq_pos {q : ℚ} (hq : 0 < q) : 0 < sqrtLBq q := by
  obtain ⟨ht, _⟩ := sqrtUBq_invariant hq.le
  exact div_pos hq ht

lemma expTaylor_nonneg {x : ℚ} (hx : 0 ≤ x) (m : ℕ) : 0 ≤ expTaylor x m := by
  unfold expTaylor
  exact Finset.sum_nonneg fun i _ => by positivity

lemma expTaylor_le_exp {x : ℚ} (hx : 0 ≤ x) (m : ℕ) :
    ((expTaylor x m : ℚ) : ℝ) ≤ Real.exp (x : ℝ) := by
  have := Real.sum_le_exp_of_nonneg (x := (x : ℝ)) (by exact_mod_cast hx) m
  unfold expTaylor
  push_cast
  exact this

lemma le_expUB1 {x : ℚ} (h0 : 0 ≤ x) (h1 : x ≤ 1) {m : ℕ} (hm : 0 < m) :
    Real.exp (x : ℝ) ≤ ((expUB1 x m : ℚ) : ℝ) := by
  have := Real.exp_bound' (x := (x : ℝ)) (by exact_mod_cast h0) (by exact_mod_cast h1) hm
  unfold expUB1 expTaylor
  push_cast
  exact this

lemma expLBq_nonneg (x : ℚ) : 0 ≤ expLBq x := by
  rw [expLBq]
  positivity

lemma expLBq_le {x : ℚ} (hx : 0 ≤ x) : ((expLBq x : ℚ) : ℝ) ≤ Real.exp (x : ℝ) := by
  have hy : (0 : ℚ) ≤ x / 16 := by positivity
  have h1 : (0 : ℚ) ≤ truncDown 40 (expTaylor (x / 16) 12) :=
    truncDown_nonneg _ (expTaylor_nonneg hy 12)
  have h2 : ((truncDown 40 (expTaylor (x / 16) 12) : ℚ) : ℝ) ≤ Real.exp ((x : ℝ) / 16) := by
    calc ((truncDown 40 (expTaylor (x / 16) 12) : ℚ) : ℝ)
        ≤ ((expTaylor (x / 16) 12 : ℚ) : ℝ) := by exact_mod_cast truncDown_le _ _
      _ ≤ Real.exp ((x / 16 : ℚ) : ℝ) := expTaylor_le_exp hy 12
      _ = Real.exp ((x : ℝ) / 16) := by push_cast; ring_nf
  have h3 : Real.exp ((x : ℝ) / 16) ^ (16 : ℕ) = Real.exp (x : ℝ) := by
    rw [← Real.exp_nat_mul]
    congr 1
    ring
  rw [expLBq]
  push_cast
  calc ((truncDown 40 (expTaylor (x / 16) 12) : ℚ) : ℝ) ^ (16 : ℕ)
      ≤ Real.exp ((x : ℝ) / 16) ^ (16 : ℕ) :=
        pow_le_pow_left₀ (by exact_mod_cast h1) h2 16
    _ = Real.exp (x : ℝ) := h3

lemma le_expUBq {x : ℚ} (h0 : 0 ≤ x) (h16 : x ≤ 16) :
    Real.exp (x : ℝ) ≤ ((expUBq x : ℚ) : ℝ) := by
  have hy0 : (0 : ℚ) ≤ x / 16 := by positivity
  have hy1 : x / 16 ≤ 1 := by linarith
  have h2 : Real.exp ((x : ℝ) / 16) ≤ ((truncUp 40 (expUB1 (x / 16) 12) : ℚ) : ℝ) := by
    calc Real.exp ((x : ℝ) / 16) = Real.exp ((x / 16 : ℚ) : ℝ) := by push_cast; ring_nf
      _ ≤ ((expUB1 (x / 16) 12 : ℚ) : ℝ) := le_expUB1 hy0 hy1 (by norm_num)
      _ ≤ ((truncUp 40 (expUB1 (x / 16) 12) : ℚ) : ℝ) := by exact_mod_cast le_truncUp _ _
  have h3 : Real.exp ((x : ℝ) / 16) ^ (16 : ℕ) = Real.exp (x : ℝ) := by
    rw [← Real.exp_nat_mul]
    congr 1
    ring
  rw [expUBq]
  push_cast
  calc Real.exp (x : ℝ) = Real.exp ((x : ℝ) / 16) ^ (16 : ℕ) := h3.symm
    _ ≤ ((truncUp 40 (expUB1 (x / 16) 12) : ℚ) : ℝ) ^ (16 : ℕ) :=
        pow_le_pow_left₀ (Real.exp_nonneg _) h2 16

lemma tanh_formula (y : ℝ) : Real.tanh y = 1 - 2 / (Real.exp (2 * y) + 1) := by
  rw [Real.tanh_eq_sinh_div_cosh, Real.sinh_eq, Real.cosh_eq, Real.exp_neg]
  have h1 : Real.exp y > 0 := Real.exp_pos y
  have h2 : Real.exp (2 * y) = Real.exp y * Real.exp y := by
    rw [two_mul, Real.exp_add]
  have h3 : Real.exp (2 * y) + 1 > 0 := by positivity
  rw [h2]
  field_simp
  ring

lemma tanh_mono {a b : ℝ} (h : a ≤ b) : Real.tanh a ≤ Real.tanh b := by
  rw [tanh_formula, tanh_formula]
  have h1 : Real.exp (2 * a) ≤ Real.exp (2 * b) := Real.exp_le_exp.2 (by linarith)
  have h2 : (0 : ℝ) < Real.exp (2 * a) + 1 := by positivity
  gcongr

lemma tanhLBq_le {y : ℚ} (hy : 0 ≤ y) : ((tanhLBq y : ℚ) : ℝ) ≤ Real.tanh (y : ℝ) := by
  rw [tanh_formula]
  have h1 : ((expLBq (2 * y) : ℚ) : ℝ) ≤ Real.exp (2 * (y : ℝ)) := by
    have := expLBq_le (x := 2 * y) (by positivity)
    calc ((expLBq (2 * y) : ℚ) : ℝ) ≤ Real.exp ((2 * y : ℚ) : ℝ) := this
      _ = Real.exp (2 * (y : ℝ)) := by push_cast; ring_nf
  have h2 : (0 : ℝ) ≤ ((expLBq (2 * y) : ℚ) : ℝ) := by exact_mod_cast expLBq_nonneg (2 * y)
  rw [tanhLBq]
  push_cast
  gcongr

lemma le_tanhUBq {y : ℚ} (hy : 0 ≤ y) (h16 : 2 * y ≤ 16) :
    Real.tanh (y : ℝ) ≤ ((tanhUBq y : ℚ) : ℝ) := by
  rw [tanh_formula]
  have h1 : Real.exp (2 * (y : ℝ)) ≤ ((expUBq (2 * y) : ℚ) : ℝ) := by
    have := le_expUBq (x := 2 * y) (by positivity) h16
    calc Real.exp (2 * (y : ℝ)) = Real.exp ((2 * y : ℚ) : ℝ) := by push_cast; ring_nf
      _ ≤ ((expUBq (2 * y) : ℚ) : ℝ) := this
  have h2 : (0 : ℝ) < Real.exp (2 * (y : ℝ)) + 1 := by positivity
  rw [tanhUBq]
  push_cast
  gcongr

lemma piLq_le_pi : ((piLq : ℚ) : ℝ) ≤ π := by
  have h := Real.pi_gt_d20
  rw [piLq]
  norm_num at h ⊢
  linarith

lemma pi_le_piUq : π ≤ ((piUq : ℚ) : ℝ) := by
  have h := Real.pi_lt_d20
  rw [piUq]
  norm_num at h ⊢
  linarith

lemma fdSum_nonneg {d w : ℝ} (hd : 0 ≤ d) (hw : 0 < w) : 0 ≤ fdSum d w := by
  rw [fdSum]
  apply List.sum_nonneg
  intro x hx
  simp only [List.mem_map] at hx
  obtain ⟨i, -, rfl⟩ := hx
  have ht : 0 ≤ Real.tanh ((i : ℝ) * π * d / (2 * w)) := by
    have harg : (0 : ℝ) ≤ (i : ℝ) * π * d / (2 * w) := by positivity
    have := tanh_mono harg
    simpa [Real.tanh_zero] using this
  positivity

lemma castListSum (l : List ℕ) (f : ℕ → ℚ) :
    (((l.map f).sum : ℚ) : ℝ) = (l.map (fun i => ((f i : ℚ) : ℝ))).sum := by
  induction l with
  | nil => simp
  | cons a l ih => simp [ih]

lemma piLq_pos : (0 : ℚ) < piLq := by rw [piLq]; norm_num

lemma piUq_pos : (0 : ℚ) < piUq := by rw [piUq]; norm_num

lemma cosArctanLB_le {r : ℚ} (p : ℝ) {s : ℝ} (hr0 : 0 ≤ r) (hs : 0 < s) (hp : p = (r : ℝ) * s) :
    ((cosArctanLB r : ℚ) : ℝ) ≤ Real.cos (Real.arctan (p / (π * s))) := by
  rw [Real.cos_arctan]
  have hpiL : (0 : ℝ) < ((piLq : ℚ) : ℝ) := by exact_mod_cast piLq_pos
  have hx : p / (π * s) = (r : ℝ) / π := by
    rw [hp]
    field_simp
    ring
  rw [hx]
  have hxU : (r : ℝ) / π ≤ (r : ℝ) / ((piLq : ℚ) : ℝ) :=
    div_le_div_of_nonneg_left (by exact_mod_cast hr0) hpiL piLq_le_pi
  have hx0 : (0 : ℝ) ≤ (r : ℝ) / π := by positivity
  have hq0 : (0 : ℚ) ≤ 1 + (r / piLq) ^ 2 := by positivity
  have h1 : 1 + ((r : ℝ) / π) ^ 2 ≤ ((1 + (r / piLq) ^ 2 : ℚ) : ℝ) := by
    push_cast
    nlinarith [hxU, hx0]

  have h2 : Real.sqrt (1 + ((r : ℝ) / π) ^ 2) ≤ ((sqrtUBq (1 + (r / piLq) ^ 2) : ℚ) : ℝ) :=
    le_trans (Real.sqrt_le_sqrt h1) (sqrt_le_sqrtUBq hq0)
  have h3 : (0 : ℝ) < Real.sqrt (1 + ((r : ℝ) / π) ^ 2) := by
    apply Real.sqrt_pos.2
    nlinarith [sq_nonneg ((r : ℝ) / π)]
  calc ((cosArctanLB r : ℚ) : ℝ)
      ≤ ((1 / sqrtUBq (1 + (r / piLq) ^ 2) : ℚ) : ℝ) := by
        exact_mod_cast truncDown_le _ _
    _ = 1 / ((sqrtUBq (1 + (r / piLq) ^ 2) : ℚ) : ℝ) := by push_cast; ring
    _ ≤ 1 / Real.sqrt (1 + ((r : ℝ) / π) ^ 2) := by
        apply one_div_le_one_div_of_le h3 h2

lemma le_cosArctanUB {r : ℚ} (p : ℝ) {s : ℝ} (hr0 : 0 ≤ r) (hs : 0 < s) (hp : p = (r : ℝ) * s) :
    Real.cos (Real.arctan (p / (π * s))) ≤ ((cosArctanUB r : ℚ) : ℝ) := by
  rw [Real.cos_arctan]
  have hpiU : (0 : ℝ) < ((piUq : ℚ) : ℝ) := by exact_mod_cast piUq_pos
  have hx : p / (π * s) = (r : ℝ) / π := by
    rw [hp]
    field_simp
    ring
  rw [hx]
  have hxL : (r : ℝ) / ((piUq : ℚ) : ℝ) ≤ (r : ℝ) / π :=
    div_le_div_of_nonneg_left (by exact_mod_cast hr0) Real.pi_pos pi_le_piUq
  have hxL0 : (0 : ℝ) ≤ (r : ℝ) / ((piUq : ℚ) : ℝ) := by positivity
  have hq0 : (0 : ℚ) < 1 + (r / piUq) ^ 2 := by positivity
  have h1 : ((1 + (r / piUq) ^ 2 : ℚ) : ℝ) ≤ 1 + ((r : ℝ) / π) ^ 2 := by
    push_cast
    nlinarith [hxL, hxL0]
  have h2 : ((sqrtLBq (1 + (r / piUq) ^ 2) : ℚ) : ℝ) ≤ Real.sqrt (1 + ((r : ℝ) / π) ^ 2) :=
    le_trans (sqrtLBq_le_sqrt hq0.le) (Real.sqrt_le_sqrt h1)
  have h3 : (0 : ℝ) < ((sqrtLBq (1 + (r / piUq) ^ 2) : ℚ) : ℝ) := by
    exact_mod_cast sqrtLBq_pos hq0
  calc 1 / Real.sqrt (1 + ((r : ℝ) / π) ^ 2)
      ≤ 1 / ((sqrtLBq (1 + (r / piUq) ^ 2) : ℚ) : ℝ) := one_div_le_one_div_of_le h3 h2
    _ = ((1 / sqrtLBq (1 + (r / piUq) ^ 2) : ℚ) : ℝ) := by push_cast; ring
    _ ≤ ((cosArctanUB r : ℚ) : ℝ) := by exact_mod_cast le_truncUp _ _

lemma SLBq_le_fdSum {d wL wU : ℚ} (w : ℝ) (hd : 0 < d) (hwL : 0 < wL)
    (h1 : (wL : ℝ) ≤ w) (h2 : w ≤ (wU : ℝ)) :
    ((SLBq d wU : ℚ) : ℝ) ≤ fdSum (d : ℝ) w := by
  have hw0 : (0 : ℝ) < w := lt_of_lt_of_le (by exact_mod_cast hwL) h1
  have hwU : (0 : ℚ) < wU := by
    have hx : (wL : ℝ) ≤ (wU : ℝ) := le_trans h1 h2
    exact_mod_cast lt_of_lt_of_le hwL (by exact_mod_cast hx)
  rw [SLBq, castListSum, fdSum]
  apply List.sum_le_sum
  intro i _
  have hq0 : (0 : ℚ) ≤ (i * piLq * d) / (2 * wU) :=
    div_nonneg (mul_nonneg (mul_nonneg (Nat.cast_nonneg i) piLq_pos.le) hd.le) (by linarith)
  have haL0 : (0 : ℚ) ≤ truncDown 30 ((i * piLq * d) / (2 * wU)) :=
    truncDown_nonneg _ hq0
  have hstep3 : Real.tanh ((truncDown 30 ((i * piLq * d) / (2 * wU)) : ℚ) : ℝ) ≤
      Real.tanh ((i : ℝ) * π * (d : ℝ) / (2 * w)) := by
    apply tanh_mono
    calc ((truncDown 30 ((i * piLq * d) / (2 * wU)) : ℚ) : ℝ)
        ≤ (((i * piLq * d) / (2 * wU) : ℚ) : ℝ) := by exact_mod_cast truncDown_le _ _
      _ = ((i : ℝ) * ((piLq : ℚ) : ℝ) * (d : ℝ)) / (2 * ((wU : ℚ) : ℝ)) := by push_cast; ring
      _ ≤ ((i : ℝ) * π * (d : ℝ)) / (2 * w) := by
          have hi : (0 : ℝ) ≤ (i : ℝ) := Nat.cast_nonneg i
          have hdR : (0 : ℝ) ≤ (d : ℝ) := by exact_mod_cast hd.le
          have hnum : (i : ℝ) * ((piLq : ℚ) : ℝ) * (d : ℝ) ≤ (i : ℝ) * π * (d : ℝ) :=
            mul_le_mul_of_nonneg_right (mul_le_mul_of_nonneg_left piLq_le_pi hi) hdR
          have hnum0 : (0 : ℝ) ≤ (i : ℝ) * π * (d : ℝ) := by positivity
          exact div_le_div hnum0 hnum (by linarith) (by linarith)
  calc ((truncDown 30 ((1 / (i : ℚ) ^ 3) *
        tanhLBq (truncDown 30 ((i * piLq * d) / (2 * wU)))) : ℚ) : ℝ)
      ≤ (((1 / (i : ℚ) ^ 3) * tanhLBq (truncDown 30 ((i * piLq * d) / (2 * wU))) : ℚ) : ℝ) := by
        exact_mod_cast truncDown_le _ _
    _ = (1 / (i : ℝ) ^ 3) * ((tanhLBq (truncDown 30 ((i * piLq * d) / (2 * wU))) : ℚ) : ℝ) := by
        push_cast
        ring
    _ ≤ (1 / (i : ℝ) ^ 3) * Real.tanh ((i : ℝ) * π * (d : ℝ) / (2 * w)) := by
        apply mul_le_mul_of_nonneg_left _ (by positivity)
        exact le_trans (tanhLBq_le haL0) hstep3

lemma fdSum_le_SUBq {d wL wU : ℚ} (w : ℝ) (hd : 0 < d) (hwL : 0 < wL)
    (h1 : (wL : ℝ) ≤ w) (h2 : w ≤ (wU : ℝ))
    (h7 : (25 * piUq * d) / (2 * wL) ≤ 7) :
    fdSum (d : ℝ) w ≤ ((SUBq d wL : ℚ) : ℝ) := by
  have hw0 : (0 : ℝ) < w := lt_of_lt_of_le (by exact_mod_cast hwL) h1
  rw [SUBq, castListSum, fdSum]
  apply List.sum_le_sum
  intro i hi
  have hq0 : (0 : ℚ) ≤ (i * piUq * d) / (2 * wL) :=
    div_nonneg (mul_nonneg (mul_nonneg (Nat.cast_nonneg i) piUq_pos.le) hd.le) (by linarith)
  have haU0 : (0 : ℚ) ≤ truncUp 30 ((i * piUq * d) / (2 * wL)) :=
    le_trans hq0 (le_truncUp _ _)
  have hi25 : (i : ℚ) ≤ 25 := by
    have h25 : ∀ j ∈ f_d_idx, j ≤ 25 := by decide
    exact_mod_cast h25 i hi
  have hargmono : ((i : ℚ) * piUq * d) / (2 * wL) ≤ (25 * piUq * d) / (2 * wL) := by
    have hnum : (i : ℚ) * piUq * d ≤ 25 * piUq * d :=
      mul_le_mul_of_nonneg_right (mul_le_mul_of_nonneg_right hi25 piUq_pos.le) hd.le
    exact (div_le_div_right (by linarith)).2 hnum
  have h16 : 2 * truncUp 30 (((i : ℚ) * piUq * d) / (2 * wL)) ≤ 16 := by
    have ht := truncUp_le_add_one 30 (((i : ℚ) * piUq * d) / (2 * wL))
    linarith
  have hstep3 : Real.tanh ((i : ℝ) * π * (d : ℝ) / (2 * w)) ≤
      Real.tanh ((truncUp 30 ((i * piUq * d) / (2 * wL)) : ℚ) : ℝ) := by
    apply tanh_mono
    calc (i : ℝ) * π * (d : ℝ) / (2 * w)
        ≤ ((i : ℝ) * ((piUq : ℚ) : ℝ) * (d : ℝ)) / (2 * ((wL : ℚ) : ℝ)) := by
          have hi2 : (0 : ℝ) ≤ (i : ℝ) := Nat.cast_nonneg i
          have hdR : (0 : ℝ) ≤ (d : ℝ) := by exact_mod_cast hd.le
          have hnum : (i : ℝ) * π * (d : ℝ) ≤ (i : ℝ) * ((piUq : ℚ) : ℝ) * (d : ℝ) :=
            mul_le_mul_of_nonneg_right (mul_le_mul_of_nonneg_left pi_le_piUq hi2) hdR
          have hnum0 : (0 : ℝ) ≤ (i : ℝ) * ((piUq : ℚ) : ℝ) * (d : ℝ) := by
            have := piUq_pos
            have hpiU : (0 : ℝ) ≤ ((piUq : ℚ) : ℝ) := by exact_mod_cast this.le
            positivity
          have hwLR : (0 : ℝ) < ((wL : ℚ) : ℝ) := by exact_mod_cast hwL
          exact div_le_div hnum0 hnum (by linarith) (by linarith)
      _ = (((i * piUq * d) / (2 * wL) : ℚ) : ℝ) := by push_cast; ring
      _ ≤ ((truncUp 30 ((i * piUq * d) / (2 * wL)) : ℚ) : ℝ) := by
          exact_mod_cast le_truncUp _ _
  calc (1 / (i : ℝ) ^ 3) * Real.tanh ((i : ℝ) * π * (d : ℝ) / (2 * w))
      ≤ (1 / (i : ℝ) ^ 3) * ((tanhUBq (truncUp 30 ((i * piUq * d) / (2 * wL))) : ℚ) : ℝ) := by
        apply mul_le_mul_of_nonneg_left _ (by positivity)
        exact le_trans hstep3 (le_tanhUBq haU0 h16)
    _ = (((1 / (i : ℚ) ^ 3) * tanhUBq (truncUp 30 ((i * piUq * d) / (2 * wL))) : ℚ) : ℝ) := by
        push_cast
        ring
    _ ≤ ((truncUp 30 ((1 / (i : ℚ) ^ 3) *
        tanhUBq (truncUp 30 ((i * piUq * d) / (2 * wL)))) : ℚ) : ℝ) := by
        exact_mod_cast le_truncUp _ _

lemma avgW_eq (size depth pitch w_flight n_flight : ℝ) :
    avgW size depth pitch w_flight n_flight =
      (pitch / n_flight) * (Real.cos (Real.arctan (pitch / (π * size))) +
        Real.cos (Real.arctan (pitch / (π * (size - depth * 2))))) / 2 - w_flight := by
  rw [avgW]
  ring

lemma throughput_raw_eq (size depth density rpm pitch w_flight n_flight : ℝ)
    (hd : depth ≠ 0) :
    throughput_raw size depth density rpm pitch w_flight n_flight =
      3 / 6250000 * (n_flight * density * rpm * size *
        Real.cos (Real.arctan (pitch / (π * size))) *
        (avgW size depth pitch w_flight n_flight) ^ 2 *
        fdSum depth (avgW size depth pitch w_flight n_flight)) / π ^ 2 := by
  simp only [throughput_raw, avgW]
  have hpi : π ≠ 0 := Real.pi_ne_zero
  field_simp
  ring

lemma pyRound_eq {x : ℝ} {n : ℕ} {m : ℤ} (h1 : (m : ℝ) - 1 / 2 ≤ x * 10 ^ n)
    (h2 : x * 10 ^ n < (m : ℝ) + 1 / 2) : pyRound n x = (m : ℝ) / 10 ^ n := by
  have h3 : ⌊x * 10 ^ n + 1 / 2⌋ = m := by
    rw [Int.floor_eq_iff]
    constructor
    · linarith
    · push_cast
      linarith
  rw [pyRound, h3]

lemma interval_product (A cb w S p : ℝ) (cbL cbU wL wU SL SU pL pU : ℝ)
    (hA : 0 ≤ A) (h1 : cbL ≤ cb) (h2 : cb ≤ cbU) (h3 : wL ≤ w) (h4 : w ≤ wU)
    (h5 : SL ≤ S) (h6 : S ≤ SU) (h7 : pL ≤ p) (h8 : p ≤ pU)
    (hcbL : 0 ≤ cbL) (hwL : 0 ≤ wL) (hS : 0 ≤ S) (hpL : 0 < pL) :
    A * (cb * w ^ 2 * S) / p ^ 2 ≤ A * (cbU * wU ^ 2 * SU) / pL ^ 2 ∧
    A * (cbL * wL ^ 2 * SL) / pU ^ 2 ≤ A * (cb * w ^ 2 * S) / p ^ 2 := by
  have hw : 0 ≤ w := le_trans hwL h3
  have hcb : 0 ≤ cb := le_trans hcbL h1
  have hp : 0 < p := lt_of_lt_of_le hpL h7
  have hpU : 0 < pU := lt_of_lt_of_le hp h8
  have hwU : 0 ≤ wU := le_trans hw h4
  have hcbU : 0 ≤ cbU := le_trans hcb h2
  have hSU : 0 ≤ SU := le_trans hS h6
  constructor
  · have e1 : w ^ 2 ≤ wU ^ 2 := by nlinarith
    have e2 : cb * w ^ 2 ≤ cbU * wU ^ 2 :=
      mul_le_mul h2 e1 (by positivity) hcbU
    have e3 : cb * w ^ 2 * S ≤ cbU * wU ^ 2 * SU :=
      mul_le_mul e2 h6 hS (by positivity)
    have e4 : A * (cb * w ^ 2 * S) ≤ A * (cbU * wU ^ 2 * SU) :=
      mul_le_mul_of_nonneg_left e3 hA
    have e5 : pL ^ 2 ≤ p ^ 2 := by nlinarith
    exact div_le_div (by positivity) e4 (by positivity) e5
  · have e1 : wL ^ 2 ≤ w ^ 2 := by nlinarith
    have e3 : cbL * wL ^ 2 * SL ≤ cb * w ^ 2 * S := by
      rcases le_or_lt 0 SL with hSL | hSL
      · have e2 : cbL * wL ^ 2 ≤ cb * w ^ 2 :=
          mul_le_mul h1 e1 (by positivity) hcb
        exact mul_le_mul e2 h5 hSL (by positivity)
      · have e6 : cbL * wL ^ 2 * SL ≤ 0 :=
          mul_nonpos_of_nonneg_of_nonpos (by positivity) hSL.le
        have e7 : (0 : ℝ) ≤ cb * w ^ 2 * S := by positivity
        linarith
    have e4 : A * (cbL * wL ^ 2 * SL) ≤ A * (cb * w ^ 2 * S) :=
      mul_le_mul_of_nonneg_left e3 hA
    have e5 : p ^ 2 ≤ pU ^ 2 := by nlinarith
    exact div_le_div (by positivity) e4 (by positivity) e5

set_option maxHeartbeats 4000000 in
lemma rawA_bounds :
    (23505 / 1000 : ℝ) ≤ throughput_raw 200 10 800 1 200 20 1 ∧
    throughput_raw 200 10 800 1 200 20 1 < 23515 / 1000 := by
  have hcbL := cosArctanLB_le (r := 1) ((200 : ℝ)) (s := (200 : ℝ))
    (by norm_num) (by norm_num) (by push_cast; norm_num)
  have hcbU := le_cosArctanUB (r := 1) ((200 : ℝ)) (s := (200 : ℝ))
    (by norm_num) (by norm_num) (by push_cast; norm_num)
  have hccL := cosArctanLB_le (r := 10 / 9) ((200 : ℝ)) (s := (200 - 10 * 2 : ℝ))
    (by norm_num) (by norm_num) (by push_cast; norm_num)
  have hccU := le_cosArctanUB (r := 10 / 9) ((200 : ℝ)) (s := (200 - 10 * 2 : ℝ))
    (by norm_num) (by norm_num) (by push_cast; norm_num)
  set cb := Real.cos (Real.arctan ((200 : ℝ) / (π * 200))) with hcb_def
  set cc := Real.cos (Real.arctan ((200 : ℝ) / (π * (200 - 10 * 2)))) with hcc_def
  set aw := avgW 200 10 200 20 1 with haw_def
  have haw : aw = 200 / 1 * (cb + cc) / 2 - 20 := by
    rw [haw_def, avgW_eq]
  have hawL : ((200 * (cosArctanLB 1 + cosArctanLB (10 / 9)) / 2 - 20 : ℚ) : ℝ) ≤ aw := by
    rw [haw]
    push_cast
    linarith
  have hawU : aw ≤ ((200 * (cosArctanUB 1 + cosArctanUB (10 / 9)) / 2 - 20 : ℚ) : ℝ) := by
    rw [haw]
    push_cast
    linarith
  have hwL0 : (0 : ℚ) < 200 * (cosArctanLB 1 + cosArctanLB (10 / 9)) / 2 - 20 := by
    norm_num [cosArctanLB, sqrtUBq, newtonStep, truncDown, piLq]
  have hSL := SLBq_le_fdSum (d := 10) (aw) (by norm_num) hwL0 hawL hawU
  have hSU := fdSum_le_SUBq (d := 10) (aw) (by norm_num) hwL0 hawL hawU
    (by norm_num [piUq, cosArctanLB, sqrtUBq, newtonStep, truncDown, piLq])
  have hcast10 : ((10 : ℚ) : ℝ) = (10 : ℝ) := by norm_num
  rw [hcast10] at hSL hSU
  have hraw : throughput_raw 200 10 800 1 200 20 1 =
      48 / 625 * (cb * aw ^ 2 * fdSum 10 aw) / π ^ 2 := by
    rw [throughput_raw_eq _ _ _ _ _ _ _ (by norm_num)]
    rw [← haw_def, ← hcb_def]
    ring
  have hprod := interval_product ((48 / 625 : ℝ)) (cb) (aw)
    (fdSum 10 aw) (π)
    (((cosArctanLB 1 : ℚ) : ℝ)) (((cosArctanUB 1 : ℚ) : ℝ))
    (((200 * (cosArctanLB 1 + cosArctanLB (10 / 9)) / 2 - 20 : ℚ) : ℝ))
    (((200 * (cosArctanUB 1 + cosArctanUB (10 / 9)) / 2 - 20 : ℚ) : ℝ))
    (((SLBq 10 (200 * (cosArctanUB 1 + cosArctanUB (10 / 9)) / 2 - 20) : ℚ) : ℝ))
    (((SUBq 10 (200 * (cosArctanLB 1 + cosArctanLB (10 / 9)) / 2 - 20) : ℚ) : ℝ))
    (((piLq : ℚ) : ℝ)) (((piUq : ℚ) : ℝ))
    (by norm_num) hcbL hcbU hawL hawU hSL hSU piLq_le_pi pi_le_piUq
    (by exact_mod_cast (by norm_num [cosArctanLB, sqrtUBq, newtonStep, truncDown, piLq] :
      (0 : ℚ) ≤ cosArctanLB 1))
    (by exact_mod_cast hwL0.le)
    (fdSum_nonneg (by norm_num) (lt_of_lt_of_le (by exact_mod_cast hwL0) hawL))
    (by exact_mod_cast piLq_pos)
  rw [hraw]
  constructor
  · refine le_trans ?_ hprod.2
    have hq : (23505 / 1000 : ℚ) ≤ 48 / 625 *
        (cosArctanLB 1 * (200 * (cosArctanLB 1 + cosArctanLB (10 / 9)) / 2 - 20) ^ 2 *
          SLBq 10 (200 * (cosArctanUB 1 + cosArctanUB (10 / 9)) / 2 - 20)) / piUq ^ 2 := by
      norm_num [SLBq, f_d_idx, tanhLBq, expLBq, truncDown, truncUp, expTaylor,
        cosArctanLB, cosArctanUB, sqrtUBq, sqrtLBq, newtonStep, piLq, piUq,
        Finset.sum_range_succ, Nat.factorial]
    have hlift := (Rat.cast_le (K := ℝ)).2 hq
    push_cast at hlift
    push_cast
    convert hlift using 2 <;> push_cast <;> ring
  · refine lt_of_le_of_lt hprod.1 ?_
    have hq : 48 / 625 *
        (cosArctanUB 1 * (200 * (cosArctanUB 1 + cosArctanUB (10 / 9)) / 2 - 20) ^ 2 *
          SUBq 10 (200 * (cosArctanLB 1 + cosArctanLB (10 / 9)) / 2 - 20)) / piLq ^ 2 <
        (23515 / 1000 : ℚ) := by
      norm_num [SUBq, f_d_idx, tanhUBq, expUBq, expUB1, truncDown, truncUp, expTaylor,
        cosArctanLB, cosArctanUB, sqrtUBq, sqrtLBq, newtonStep, piLq, piUq,
        Finset.sum_range_succ, Nat.factorial]
    have hlift := (Rat.cast_lt (K := ℝ)).2 hq
    push_cast at hlift
    push_cast
    convert hlift using 2 <;> push_cast <;> ring

set_option maxHeartbeats 4000000 in
lemma rawB_bounds :
    (4540035 / 1000 : ℝ) ≤ throughput_raw 250 12 800 100 300 25 2 ∧
    throughput_raw 250 12 800 100 300 25 2 < 4540045 / 1000 := by
  have hcbL := cosArctanLB_le (r := (6 / 5)) ((300 : ℝ)) (s := (250 : ℝ))
    (by norm_num) (by norm_num) (by push_cast; norm_num)
  have hcbU := le_cosArctanUB (r := (6 / 5)) ((300 : ℝ)) (s := (250 : ℝ))
    (by norm_num) (by norm_num) (by push_cast; norm_num)
  have hccL := cosArctanLB_le (r := (150 / 113)) ((300 : ℝ)) (s := (250 - 12 * 2 : ℝ))
    (by norm_num) (by norm_num) (by push_cast; norm_num)
  have hccU := le_cosArctanUB (r := (150 / 113)) ((300 : ℝ)) (s := (250 - 12 * 2 : ℝ))
    (by norm_num) (by norm_num) (by push_cast; norm_num)
  set cb := Real.cos (Real.arctan ((300 : ℝ) / (π * 250))) with hcb_def
  set cc := Real.cos (Real.arctan ((300 : ℝ) / (π * (250 - 12 * 2)))) with hcc_def
  set aw := avgW 250 12 300 25 2 with haw_def
  have haw : aw = 300 / 2 * (cb + cc) / 2 - 25 := by
    rw [haw_def, avgW_eq]
  have hawL : (((300 / 2) * (cosArctanLB (6 / 5) + cosArctanLB (150 / 113)) / 2 - 25 : ℚ) : ℝ) ≤ aw := by
    rw [haw]
    push_cast
    linarith
  have hawU : aw ≤ (((300 / 2) * (cosArctanUB (6 / 5) + cosArctanUB (150 / 113)) / 2 - 25 : ℚ) : ℝ) := by
    rw [haw]
    push_cast
    linarith
  have hwL0 : (0 : ℚ) < (300 / 2) * (cosArctanLB (6 / 5) + cosArctanLB (150 / 113)) / 2 - 25 := by
    norm_num [cosArctanLB, sqrtUBq, newtonStep, truncDown, piLq]
  have hSL := SLBq_le_fdSum (d := 12) (aw) (by norm_num) hwL0 hawL hawU
  have hSU := fdSum_le_SUBq (d := 12) (aw) (by norm_num) hwL0 hawL hawU
    (by norm_num [piUq, cosArctanLB, sqrtUBq, newtonStep, truncDown, piLq])
  have hcastd : ((12 : ℚ) : ℝ) = (12 : ℝ) := by norm_num
  rw [hcastd] at hSL hSU
  have hraw : throughput_raw 250 12 800 100 300 25 2 =
      (96 / 5) * (cb * aw ^ 2 * fdSum 12 aw) / π ^ 2 := by
    rw [throughput_raw_eq _ _ _ _ _ _ _ (by norm_num)]
    rw [← haw_def, ← hcb_def]
    ring
  have hprod := interval_product (((96 / 5) : ℝ)) (cb) (aw)
    (fdSum 12 aw) (π)
    (((cosArctanLB (6 / 5) : ℚ) : ℝ)) (((cosArctanUB (6 / 5) : ℚ) : ℝ))
    ((((300 / 2) * (cosArctanLB (6 / 5) + cosArctanLB (150 / 113)) / 2 - 25 : ℚ) : ℝ))
    ((((300 / 2) * (cosArctanUB (6 / 5) + cosArctanUB (150 / 113)) / 2 - 25 : ℚ) : ℝ))
    (((SLBq 12 ((300 / 2) * (cosArctanUB (6 / 5) + cosArctanUB (150 / 113)) / 2 - 25) : ℚ) : ℝ))
    (((SUBq 12 ((300 / 2) * (cosArctanLB (6 / 5) + cosArctanLB (150 / 113)) / 2 - 25) : ℚ) : ℝ))
    (((piLq : ℚ) : ℝ)) (((piUq : ℚ) : ℝ))
    (by norm_num) hcbL hcbU hawL hawU hSL hSU piLq_le_pi pi_le_piUq
    (by exact_mod_cast (by norm_num [cosArctanLB, sqrtUBq, newtonStep, truncDown, piLq] :
      (0 : ℚ) ≤ cosArctanLB (6 / 5)))
    (by exact_mod_cast hwL0.le)
    (fdSum_nonneg (by norm_num) (lt_of_lt_of_le (by exact_mod_cast hwL0) hawL))
    (by exact_mod_cast piLq_pos)
  rw [hraw]
  constructor
  · refine le_trans ?_ hprod.2
    have hq : (4540035 / 1000 : ℚ) ≤ (96 / 5) *
        (cosArctanLB (6 / 5) * ((300 / 2) * (cosArctanLB (6 / 5) + cosArctanLB (150 / 113)) / 2 - 25) ^ 2 *
          SLBq 12 ((300 / 2) * (cosArctanUB (6 / 5) + cosArctanUB (150 / 113)) / 2 - 25)) / piUq ^ 2 := by
      norm_num [SLBq, f_d_idx, tanhLBq, expLBq, truncDown, truncUp, expTaylor,
        cosArctanLB, cosArctanUB, sqrtUBq, sqrtLBq, newtonStep, piLq, piUq,
        Finset.sum_range_succ, Nat.factorial]
    have hlift := (Rat.cast_le (K := ℝ)).2 hq
    push_cast at hlift
    push_cast
    convert hlift using 2
  · refine lt_of_le_of_lt hprod.1 ?_
    have hq : (96 / 5) *
        (cosArctanUB (6 / 5) * ((300 / 2) * (cosArctanUB (6 / 5) + cosArctanUB (150 / 113)) / 2 - 25) ^ 2 *
          SUBq 12 ((300 / 2) * (cosArctanLB (6 / 5) + cosArctanLB (150 / 113)) / 2 - 25)) / piLq ^ 2 <
        (4540045 / 1000 : ℚ) := by
      norm_num [SUBq, f_d_idx, tanhUBq, expUBq, expUB1, truncDown, truncUp, expTaylor,
        cosArctanLB, cosArctanUB, sqrtUBq, sqrtLBq, newtonStep, piLq, piUq,
        Finset.sum_range_succ, Nat.factorial]
    have hlift := (Rat.cast_lt (K := ℝ)).2 hq
    push_cast at hlift
    push_cast
    convert hlift using 2

set_option maxHeartbeats 4000000 in
lemma rawC_bounds :
    (1685 / 1000 : ℝ) ≤ throughput_raw 20 2 1000 30 20 2 1 ∧
    throughput_raw 20 2 1000 30 20 2 1 < 1695 / 1000 := by
  have hcbL := cosArctanLB_le (r := 1) ((20 : ℝ)) (s := (20 : ℝ))
    (by norm_num) (by norm_num) (by push_cast; norm_num)
  have hcbU := le_cosArctanUB (r := 1) ((20 : ℝ)) (s := (20 : ℝ))
    (by norm_num) (by norm_num) (by push_cast; norm_num)
  have hccL := cosArctanLB_le (r := (5 / 4)) ((20 : ℝ)) (s := (20 - 2 * 2 : ℝ))
    (by norm_num) (by norm_num) (by push_cast; norm_num)
  have hccU := le_cosArctanUB (r := (5 / 4)) ((20 : ℝ)) (s := (20 - 2 * 2 : ℝ))
    (by norm_num) (by norm_num) (by push_cast; norm_num)
  set cb := Real.cos (Real.arctan ((20 : ℝ) / (π * 20))) with hcb_def
  set cc := Real.cos (Real.arctan ((20 : ℝ) / (π * (20 - 2 * 2)))) with hcc_def
  set aw := avgW 20 2 20 2 1 with haw_def
  have haw : aw = 20 / 1 * (cb + cc) / 2 - 2 := by
    rw [haw_def, avgW_eq]
  have hawL : (((20 / 1) * (cosArctanLB 1 + cosArctanLB (5 / 4)) / 2 - 2 : ℚ) : ℝ) ≤ aw := by
    rw [haw]
    push_cast
    linarith
  have hawU : aw ≤ (((20 / 1) * (cosArctanUB 1 + cosArctanUB (5 / 4)) / 2 - 2 : ℚ) : ℝ) := by
    rw [haw]
    push_cast
    linarith
  have hwL0 : (0 : ℚ) < (20 / 1) * (cosArctanLB 1 + cosArctanLB (5 / 4)) / 2 - 2 := by
    norm_num [cosArctanLB, sqrtUBq, newtonStep, truncDown, piLq]
  have hSL := SLBq_le_fdSum (d := 2) (aw) (by norm_num) hwL0 hawL hawU
  have hSU := fdSum_le_SUBq (d := 2) (aw) (by norm_num) hwL0 hawL hawU
    (by norm_num [piUq, cosArctanLB, sqrtUBq, newtonStep, truncDown, piLq])
  have hcastd : ((2 : ℚ) : ℝ) = (2 : ℝ) := by norm_num
  rw [hcastd] at hSL hSU
  have hraw : throughput_raw 20 2 1000 30 20 2 1 =
      (36 / 125) * (cb * aw ^ 2 * fdSum 2 aw) / π ^ 2 := by
    rw [throughput_raw_eq _ _ _ _ _ _ _ (by norm_num)]
    rw [← haw_def, ← hcb_def]
    ring
  have hprod := interval_product (((36 / 125) : ℝ)) (cb) (aw)
    (fdSum 2 aw) (π)
    (((cosArctanLB 1 : ℚ) : ℝ)) (((cosArctanUB 1 : ℚ) : ℝ))
    ((((20 / 1) * (cosArctanLB 1 + cosArctanLB (5 / 4)) / 2 - 2 : ℚ) : ℝ))
    ((((20 / 1) * (cosArctanUB 1 + cosArctanUB (5 / 4)) / 2 - 2 : ℚ) : ℝ))
    (((SLBq 2 ((20 / 1) * (cosArctanUB 1 + cosArctanUB (5 / 4)) / 2 - 2) : ℚ) : ℝ))
    (((SUBq 2 ((20 / 1) * (cosArctanLB 1 + cosArctanLB (5 / 4)) / 2 - 2) : ℚ) : ℝ))
    (((piLq : ℚ) : ℝ)) (((piUq : ℚ) : ℝ))
    (by norm_num) hcbL hcbU hawL hawU hSL hSU piLq_le_pi pi_le_piUq
    (by exact_mod_cast (by norm_num [cosArctanLB, sqrtUBq, newtonStep, truncDown, piLq] :
      (0 : ℚ) ≤ cosArctanLB 1))
    (by exact_mod_cast hwL0.le)
    (fdSum_nonneg (by norm_num) (lt_of_lt_of_le (by exact_mod_cast hwL0) hawL))
    (by exact_mod_cast piLq_pos)
  rw [hraw]
  constructor
  · refine le_trans ?_ hprod.2
    have hq : (1685 / 1000 : ℚ) ≤ (36 / 125) *
        (cosArctanLB 1 * ((20 / 1) * (cosArctanLB 1 + cosArctanLB (5 / 4)) / 2 - 2) ^ 2 *
          SLBq 2 ((20 / 1) * (cosArctanUB 1 + cosArctanUB (5 / 4)) / 2 - 2)) / piUq ^ 2 := by
      norm_num [SLBq, f_d_idx, tanhLBq, expLBq, truncDown, truncUp, expTaylor,
        cosArctanLB, cosArctanUB, sqrtUBq, sqrtLBq, newtonStep, piLq, piUq,
        Finset.sum_range_succ, Nat.factorial]
    have hlift := (Rat.cast_le (K := ℝ)).2 hq
    push_cast at hlift
    push_cast
    convert hlift using 2
  · refine lt_of_le_of_lt hprod.1 ?_
    have hq : (36 / 125) *
        (cosArctanUB 1 * ((20 / 1) * (cosArctanUB 1 + cosArctanUB (5 / 4)) / 2 - 2) ^ 2 *
          SUBq 2 ((20 / 1) * (cosArctanLB 1 + cosArctanLB (5 / 4)) / 2 - 2)) / piLq ^ 2 <
        (1695 / 1000 : ℚ) := by
      norm_num [SUBq, f_d_idx, tanhUBq, expUBq, expUB1, truncDown, truncUp, expTaylor,
        cosArctanLB, cosArctanUB, sqrtUBq, sqrtLBq, newtonStep, piLq, piUq,
        Finset.sum_range_succ, Nat.factorial]
    have hlift := (Rat.cast_lt (K := ℝ)).2 hq
    push_cast at hlift
    push_cast
    convert hlift using 2

set_option maxHeartbeats 4000000 in
lemma rawD_bounds :
    (12235 / 1000 : ℝ) ≤ throughput_raw 150 6.8 800 1 206 9 1 ∧
    throughput_raw 150 6.8 800 1 206 9 1 < 12245 / 1000 := by
  have hcbL := cosArctanLB_le (r := (103 / 75)) ((206 : ℝ)) (s := (150 : ℝ))
    (by norm_num) (by norm_num) (by push_cast; norm_num)
  have hcbU := le_cosArctanUB (r := (103 / 75)) ((206 : ℝ)) (s := (150 : ℝ))
    (by norm_num) (by norm_num) (by push_cast; norm_num)
  have hccL := cosArctanLB_le (r := (515 / 341)) ((206 : ℝ)) (s := (150 - 6.8 * 2 : ℝ))
    (by norm_num) (by norm_num) (by push_cast; norm_num)
  have hccU := le_cosArctanUB (r := (515 / 341)) ((206 : ℝ)) (s := (150 - 6.8 * 2 : ℝ))
    (by norm_num) (by norm_num) (by push_cast; norm_num)
  set cb := Real.cos (Real.arctan ((206 : ℝ) / (π * 150))) with hcb_def
  set cc := Real.cos (Real.arctan ((206 : ℝ) / (π * (150 - 6.8 * 2)))) with hcc_def
  set aw := avgW 150 6.8 206 9 1 with haw_def
  have haw : aw = 206 / 1 * (cb + cc) / 2 - 9 := by
    rw [haw_def, avgW_eq]
  have hawL : (((206 / 1) * (cosArctanLB (103 / 75) + cosArctanLB (515 / 341)) / 2 - 9 : ℚ) : ℝ) ≤ aw := by
    rw [haw]
    push_cast
    linarith
  have hawU : aw ≤ (((206 / 1) * (cosArctanUB (103 / 75) + cosArctanUB (515 / 341)) / 2 - 9 : ℚ) : ℝ) := by
    rw [haw]
    push_cast
    linarith
  have hwL0 : (0 : ℚ) < (206 / 1) * (cosArctanLB (103 / 75) + cosArctanLB (515 / 341)) / 2 - 9 := by
    norm_num [cosArctanLB, sqrtUBq, newtonStep, truncDown, piLq]
  have hSL := SLBq_le_fdSum (d := (34 / 5)) (aw) (by norm_num) hwL0 hawL hawU
  have hSU := fdSum_le_SUBq (d := (34 / 5)) (aw) (by norm_num) hwL0 hawL hawU
    (by norm_num [piUq, cosArctanLB, sqrtUBq, newtonStep, truncDown, piLq])
  have hcastd : (((34 / 5) : ℚ) : ℝ) = (6.8 : ℝ) := by norm_num
  rw [hcastd] at hSL hSU
  have hraw : throughput_raw 150 6.8 800 1 206 9 1 =
      (36 / 625) * (cb * aw ^ 2 * fdSum 6.8 aw) / π ^ 2 := by
    rw [throughput_raw_eq _ _ _ _ _ _ _ (by norm_num)]
    rw [← haw_def, ← hcb_def]
    ring
  have hprod := interval_product (((36 / 625) : ℝ)) (cb) (aw)
    (fdSum 6.8 aw) (π)
    (((cosArctanLB (103 / 75) : ℚ) : ℝ)) (((cosArctanUB (103 / 75) : ℚ) : ℝ))
    ((((206 / 1) * (cosArctanLB (103 / 75) + cosArctanLB (515 / 341)) / 2 - 9 : ℚ) : ℝ))
    ((((206 / 1) * (cosArctanUB (103 / 75) + cosArctanUB (515 / 341)) / 2 - 9 : ℚ) : ℝ))
    (((SLBq (34 / 5) ((206 / 1) * (cosArctanUB (103 / 75) + cosArctanUB (515 / 341)) / 2 - 9) : ℚ) : ℝ))
    (((SUBq (34 / 5) ((206 / 1) * (cosArctanLB (103 / 75) + cosArctanLB (515 / 341)) / 2 - 9) : ℚ) : ℝ))
    (((piLq : ℚ) : ℝ)) (((piUq : ℚ) : ℝ))
    (by norm_num) hcbL hcbU hawL hawU hSL hSU piLq_le_pi pi_le_piUq
    (by exact_mod_cast (by norm_num [cosArctanLB, sqrtUBq, newtonStep, truncDown, piLq] :
      (0 : ℚ) ≤ cosArctanLB (103 / 75)))
    (by exact_mod_cast hwL0.le)
    (fdSum_nonneg (by norm_num) (lt_of_lt_of_le (by exact_mod_cast hwL0) hawL))
    (by exact_mod_cast piLq_pos)
  rw [hraw]
  constructor
  · refine le_trans ?_ hprod.2
    have hq : (12235 / 1000 : ℚ) ≤ (36 / 625) *
        (cosArctanLB (103 / 75) * ((206 / 1) * (cosArctanLB (103 / 75) + cosArctanLB (515 / 341)) / 2 - 9) ^ 2 *
          SLBq (34 / 5) ((206 / 1) * (cosArctanUB (103 / 75) + cosArctanUB (515 / 341)) / 2 - 9)) / piUq ^ 2 := by
      norm_num [SLBq, f_d_idx, tanhLBq, expLBq, truncDown, truncUp, expTaylor,
        cosArctanLB, cosArctanUB, sqrtUBq, sqrtLBq, newtonStep, piLq, piUq,
        Finset.sum_range_succ, Nat.factorial]
    have hlift := (Rat.cast_le (K := ℝ)).2 hq
    push_cast at hlift
    push_cast
    convert hlift using 2
  · refine lt_of_le_of_lt hprod.1 ?_
    have hq : (36 / 625) *
        (cosArctanUB (103 / 75) * ((206 / 1) * (cosArctanUB (103 / 75) + cosArctanUB (515 / 341)) / 2 - 9) ^ 2 *
          SUBq (34 / 5) ((206 / 1) * (cosArctanLB (103 / 75) + cosArctanLB (515 / 341)) / 2 - 9)) / piLq ^ 2 <
        (12245 / 1000 : ℚ) := by
      norm_num [SUBq, f_d_idx, tanhUBq, expUBq, expUB1, truncDown, truncUp, expTaylor,
        cosArctanLB, cosArctanUB, sqrtUBq, sqrtLBq, newtonStep, piLq, piUq,
        Finset.sum_range_succ, Nat.factorial]
    have hlift := (Rat.cast_lt (K := ℝ)).2 hq
    push_cast at hlift
    push_cast
    convert hlift using 2

lemma throughput_cal_ok {size depth density rpm : ℚ} {pitch w_flight : Option ℚ}
    {n_flight : ℤ}
    (h : throughput_check size depth density (pitch.getD size) (w_flight.getD (size * 0.1))
      n_flight = none) :
    throughput_cal size depth density rpm pitch w_flight n_flight =
      .ok (pyRound 2 (throughput_raw size depth density rpm (pitch.getD size)
        (w_flight.getD (size * 0.1)) n_flight)) := by
  simp only [throughput_cal, h]

lemma throughput_cal_error {size depth density rpm : ℚ} {pitch w_flight : Option ℚ}
    {n_flight : ℤ} {e : String}
    (h : throughput_check size depth density (pitch.getD size) (w_flight.getD (size * 0.1))
      n_flight = some e) :
    throughput_cal size depth density rpm pitch w_flight n_flight = .error e := by
  simp only [throughput_cal, h]

lemma cable_cal_ok {outer_d thickness l_speed s_density : ℚ}
    (h : cable_check outer_d thickness s_density = none) :
    cable_cal outer_d thickness l_speed s_density =
      .ok (pyRound 3 (cable_raw outer_d thickness l_speed s_density)) := by
  simp only [cable_cal, h]

lemma cable_cal_error {outer_d thickness l_speed s_density : ℚ} {e : String}
    (h : cable_check outer_d thickness s_density = some e) :
    cable_cal outer_d thickness l_speed s_density = .error e := by
  simp only [cable_cal, h]

lemma exceptMap_eq_ok {α β : Type} (f : α → Except String β) :
    ∀ l : List α, (∀ x ∈ l, ∃ y, f x = .ok y) →
      ∃ ys, exceptMap f l = .ok ys ∧ ys.length = l.length ∧
        (∀ i x, l.get? i = some x → ∃ y, f x = .ok y ∧ ys.get? i = some y) := by
  intro l
  induction l with
  | nil =>
    intro h
    exact ⟨[], rfl, rfl, by intro i x hx; simp at hx⟩
  | cons a t ih =>
    intro h
    obtain ⟨y, hy⟩ := h a (by simp)
    obtain ⟨ys, hys, hlen, hget⟩ := ih (fun x hx => h x (by simp [hx]))
    refine ⟨y :: ys, ?_, by simp [hlen], ?_⟩
    · simp only [exceptMap, hy, hys, Except.bind, Except.map]
    · intro i x hx
      cases i with
      | zero =>
        simp only [List.get?] at hx
        cases hx
        exact ⟨y, hy, rfl⟩
      | succ n =>
        simp only [List.get?] at hx ⊢
        exact hget n x hx

lemma cable_rpm_cell_ok {outer_d thickness s_density densRat depth_percent l s : ℚ}
    (h1 : cable_check outer_d thickness s_density = none)
    (h2 : throughput_check s (s * depth_percent) (s_density * densRat) s (s * 0.1) 1 = none) :
    cable_rpm_cell outer_d thickness s_density densRat depth_percent l s =
      .ok (pyRound 2 (pyRound 3 (cable_raw outer_d thickness l s_density) /
        pyRound 2 (throughput_raw ((s : ℚ) : ℝ) ((s * depth_percent : ℚ) : ℝ)
          ((s_density * densRat : ℚ) : ℝ) ((1 : ℚ) : ℝ) ((s : ℚ) : ℝ)
          ((s * 0.1 : ℚ) : ℝ) ((1 : ℤ) : ℝ)))) := by
  rw [cable_rpm_cell, cable_cal_ok h1, throughput_cal_ok (by simpa using h2)]
  simp only [Except.bind, Except.map, Option.getD]

lemma cable_plot_cell_ok {outer_d thickness s_density densRat depth_percent l s : ℚ}
    (h1 : cable_check outer_d thickness s_density = none)
    (h2 : throughput_check s (s * depth_percent) (s_density * densRat) s (s * 0.1) 1 = none) :
    cable_plot_cell outer_d thickness s_density densRat depth_percent l s =
      .ok (pyRound 3 (cable_raw outer_d thickness l s_density) /
        pyRound 2 (throughput_raw ((s : ℚ) : ℝ) ((s * depth_percent : ℚ) : ℝ)
          ((s_density * densRat : ℚ) : ℝ) ((1 : ℚ) : ℝ) ((s : ℚ) : ℝ)
          ((s * 0.1 : ℚ) : ℝ) ((1 : ℤ) : ℝ))) := by
  rw [cable_plot_cell, cable_cal_ok h1, throughput_cal_ok (by simpa using h2)]
  simp only [Except.bind, Except.map, Option.getD]

lemma cable_table_ok (outer_d thickness s_density densRat min_l_speed max_l_speed
    delta_l_speed min_size max_size delta_size depth_percent : ℚ)
    (hchk : cable_table_check outer_d thickness s_density densRat min_l_speed max_l_speed
      delta_l_speed min_size max_size delta_size depth_percent = none)
    (h1 : cable_check outer_d thickness s_density = none)
    (h2 : ∀ s ∈ cable_sizes min_size max_size delta_size,
      throughput_check s (s * depth_percent) (s_density * densRat) s (s * 0.1) 1 = none) :
    ∃ cols, cable_table outer_d thickness s_density densRat min_l_speed max_l_speed
        delta_l_speed min_size max_size delta_size depth_percent =
        .ok (cable_sizes min_size max_size delta_size, cols) ∧
      cols.length = (cable_speeds min_l_speed max_l_speed delta_l_speed).length ∧
      (∀ i l, (cable_speeds min_l_speed max_l_speed delta_l_speed).get? i = some l →
        ∃ col, cols.get? i = some (l, col) ∧
          col.length = (cable_sizes min_size max_size delta_size).length ∧
          ∀ j s, (cable_sizes min_size max_size delta_size).get? j = some s →
            col.get? j = some (pyRound 2 (pyRound 3 (cable_raw outer_d thickness l s_density) /
              pyRound 2 (throughput_raw ((s : ℚ) : ℝ) ((s * depth_percent : ℚ) : ℝ)
                ((s_density * densRat : ℚ) : ℝ) ((1 : ℚ) : ℝ) ((s : ℚ) : ℝ)
                ((s * 0.1 : ℚ) : ℝ) ((1 : ℤ) : ℝ))))) := by
  have hinner : ∀ l : ℚ, ∃ col,
      exceptMap (fun s => cable_rpm_cell outer_d thickness s_density densRat depth_percent l s)
        (cable_sizes min_size max_size delta_size) = .ok col ∧
      col.length = (cable_sizes min_size max_size delta_size).length ∧
      ∀ j s, (cable_sizes min_size max_size delta_size).get? j = some s →
        col.get? j = some (pyRound 2 (pyRound 3 (cable_raw outer_d thickness l s_density) /
          pyRound 2 (throughput_raw ((s : ℚ) : ℝ) ((s * depth_percent : ℚ) : ℝ)
            ((s_density * densRat : ℚ) : ℝ) ((1 : ℚ) : ℝ) ((s : ℚ) : ℝ)
            ((s * 0.1 : ℚ) : ℝ) ((1 : ℤ) : ℝ)))) := by
    intro l
    obtain ⟨col, hcol, hlen, hget⟩ := exceptMap_eq_ok
      (fun s => cable_rpm_cell outer_d thickness s_density densRat depth_percent l s) _
      (fun s hs => ⟨_, cable_rpm_cell_ok h1 (h2 s hs)⟩)
    refine ⟨col, hcol, hlen, ?_⟩
    intro j s hj
    obtain ⟨y, hy, hyget⟩ := hget j s hj
    have hy2 : cable_rpm_cell outer_d thickness s_density densRat depth_percent l s =
        Except.ok y := hy
    rw [cable_rpm_cell_ok h1 (h2 s (List.get?_mem hj))] at hy2
    rw [hyget, ← Except.ok.inj hy2]
  obtain ⟨cols, hcols, hclen, hcget⟩ := exceptMap_eq_ok
    (fun l => (exceptMap (fun s =>
      cable_rpm_cell outer_d thickness s_density densRat depth_percent l s)
      (cable_sizes min_size max_size delta_size)).map fun col => (l, col))
    (cable_speeds min_l_speed max_l_speed delta_l_speed)
    (fun l _ => by
      obtain ⟨col, hcol, -, -⟩ := hinner l
      refine ⟨(l, col), ?_⟩
      show (exceptMap (fun s =>
          cable_rpm_cell outer_d thickness s_density densRat depth_percent l s)
        (cable_sizes min_size max_size delta_size)).map (fun col => (l, col)) =
          Except.ok (l, col)
      rw [hcol]
      rfl)
  refine ⟨cols, ?_, hclen, ?_⟩
  · rw [cable_table, hchk]
    simp only [cable_speeds, cable_sizes] at hcols ⊢
    rw [hcols]
    rfl
  · intro i l hi
    obtain ⟨y, hy, hyget⟩ := hcget i l hi
    obtain ⟨col, hcol, hlen2, hget2⟩ := hinner l
    have hy2 : (exceptMap (fun s =>
        cable_rpm_cell outer_d thickness s_density densRat depth_percent l s)
        (cable_sizes min_size max_size delta_size)).map (fun col => (l, col)) =
          Except.ok y := hy
    rw [hcol] at hy2
    refine ⟨col, ?_, hlen2, hget2⟩
    have hyv : y = (l, col) := by
      simpa [Except.map] using hy2.symm
    rw [← hyv]
    exact hyget

lemma cable_plot_data_ok (outer_d thickness s_density densRat min_l_speed max_l_speed
    delta_l_speed min_size max_size delta_size depth_percent : ℚ)
    (hchk : cable_table_check outer_d thickness s_density densRat min_l_speed max_l_speed
      delta_l_speed min_size max_size delta_size depth_percent = none)
    (h1 : cable_check outer_d thickness s_density = none)
    (h2 : ∀ s ∈ cable_sizes min_size max_size delta_size,
      throughput_check s (s * depth_percent) (s_density * densRat) s (s * 0.1) 1 = none) :
    ∃ t, cable_plot_data outer_d thickness s_density densRat min_l_speed max_l_speed
      delta_l_speed min_size max_size delta_size depth_percent = .ok t := by
  obtain ⟨cols, hcols, -, -⟩ := exceptMap_eq_ok
    (fun l => (exceptMap (fun s =>
      cable_plot_cell outer_d thickness s_density densRat depth_percent l s)
      (cable_sizes min_size max_size delta_size)).map fun col => (l, col))
    (cable_speeds min_l_speed max_l_speed delta_l_speed)
    (fun l _ => by
      obtain ⟨col, hcol, -, -⟩ := exceptMap_eq_ok
        (fun s => cable_plot_cell outer_d thickness s_density densRat depth_percent l s) _
        (fun s hs => ⟨_, cable_plot_cell_ok h1 (h2 s hs)⟩)
      refine ⟨(l, col), ?_⟩
      show (exceptMap (fun s =>
          cable_plot_cell outer_d thickness s_density densRat depth_percent l s)
        (cable_sizes min_size max_size delta_size)).map (fun col => (l, col)) =
          Except.ok (l, col)
      rw [hcol]
      rfl)
  refine ⟨(cable_sizes min_size max_size delta_size, cols), ?_⟩
  rw [cable_plot_data, hchk]
  simp only [cable_speeds, cable_sizes] at hcols ⊢
  rw [hcols]
  rfl

/-! ## Claim theorems -/

/-- Claim C1: for each of the four concrete scenarios, `throughput_cal`
returns exactly the stated 2-decimal value:
`throughput_cal(200, 10, 800, 1, 200, 20, 1) = 23.51`,
`throughput_cal(250, 12, 800, 100, 300, 25, 2) = 4540.04`,
`throughput_cal(20, 2, 1000, 30, 20, 2, 1) = 1.69`, and
`throughput_cal(150, 6.8, 800, 1, 206, 9, 1) = 12.24`. -/
theorem claim_C1 :
    throughput_cal 200 10 800 1 (some 200) (some 20) 1 = .ok ((23.51 : ℝ)) ∧
    throughput_cal 250 12 800 100 (some 300) (some 25) 2 = .ok ((4540.04 : ℝ)) ∧
    throughput_cal 20 2 1000 30 (some 20) (some 2) 1 = .ok ((1.69 : ℝ)) ∧
    throughput_cal 150 6.8 800 1 (some 206) (some 9) 1 = .ok ((12.24 : ℝ)) := by
  refine ⟨?_, ?_, ?_, ?_⟩
  · rw [throughput_cal_ok (by norm_num [throughput_check])]
    have harg : throughput_raw ((200 : ℚ) : ℝ) ((10 : ℚ) : ℝ) ((800 : ℚ) : ℝ) ((1 : ℚ) : ℝ)
        (((some (200 : ℚ)).getD 200 : ℚ) : ℝ) (((some (20 : ℚ)).getD (200 * 0.1) : ℚ) : ℝ)
        ((1 : ℤ) : ℝ) = throughput_raw 200 10 800 1 200 20 1 := by
      norm_num
    rw [harg, pyRound_eq (m := 2351) (by norm_num; linarith [rawA_bounds.1])
      (by norm_num; linarith [rawA_bounds.2])]
    norm_num
  · rw [throughput_cal_ok (by norm_num [throughput_check])]
    have harg : throughput_raw ((250 : ℚ) : ℝ) ((12 : ℚ) : ℝ) ((800 : ℚ) : ℝ) ((100 : ℚ) : ℝ)
        (((some (300 : ℚ)).getD 250 : ℚ) : ℝ) (((some (25 : ℚ)).getD (250 * 0.1) : ℚ) : ℝ)
        ((2 : ℤ) : ℝ) = throughput_raw 250 12 800 100 300 25 2 := by
      norm_num
    rw [harg, pyRound_eq (m := 454004) (by norm_num; linarith [rawB_bounds.1])
      (by norm_num; linarith [rawB_bounds.2])]
    norm_num
  · rw [throughput_cal_ok (by norm_num [throughput_check])]
    have harg : throughput_raw ((20 : ℚ) : ℝ) ((2 : ℚ) : ℝ) ((1000 : ℚ) : ℝ) ((30 : ℚ) : ℝ)
        (((some (20 : ℚ)).getD 20 : ℚ) : ℝ) (((some (2 : ℚ)).getD (20 * 0.1) : ℚ) : ℝ)
        ((1 : ℤ) : ℝ) = throughput_raw 20 2 1000 30 20 2 1 := by
      norm_num
    rw [harg, pyRound_eq (m := 169) (by norm_num; linarith [rawC_bounds.1])
      (by norm_num; linarith [rawC_bounds.2])]
    norm_num
  · rw [throughput_cal_ok (by norm_num [throughput_check])]
    have harg : throughput_raw ((150 : ℚ) : ℝ) ((6.8 : ℚ) : ℝ) ((800 : ℚ) : ℝ) ((1 : ℚ) : ℝ)
        (((some (206 : ℚ)).getD 150 : ℚ) : ℝ) (((some (9 : ℚ)).getD (150 * 0.1) : ℚ) : ℝ)
        ((1 : ℤ) : ℝ) = throughput_raw 150 6.8 800 1 206 9 1 := by
      norm_num
    rw [harg, pyRound_eq (m := 1224) (by norm_num; linarith [rawD_bounds.1])
      (by norm_num; linarith [rawD_bounds.2])]
    norm_num

/-- Claim C2: `throughput_cal` is linear in rpm — the unrounded throughput
at `rpm = k` equals `k` times the unrounded throughput at `rpm = 1` (rpm
enters the formula only through the factor `rpm/60`), so the rounded result
at `rpm = k` is the 2-decimal rounding of `k` times the unit throughput. -/
theorem claim_C2 :
    (∀ size depth density pitch w_flight n_flight k : ℝ,
      throughput_raw size depth density k pitch w_flight n_flight =
        k * throughput_raw size depth density 1 pitch w_flight n_flight) ∧
    (∀ (size depth density k : ℚ) (pitch w_flight : Option ℚ) (n_flight : ℤ) (v : ℝ),
      throughput_cal size depth density k pitch w_flight n_flight = .ok v →
      v = pyRound 2 ((k : ℝ) * throughput_raw size depth density 1 (pitch.getD size)
        (w_flight.getD (size * 0.1)) n_flight)) := by
  have hlin : ∀ size depth density pitch w_flight n_flight k : ℝ,
      throughput_raw size depth density k pitch w_flight n_flight =
        k * throughput_raw size depth density 1 pitch w_flight n_flight := by
    intro size depth density pitch w_flight n_flight k
    simp only [throughput_raw]
    ring
  refine ⟨hlin, ?_⟩
  intro size depth density k pitch w_flight n_flight v hv
  cases hc : throughput_check size depth density (pitch.getD size)
      (w_flight.getD (size * 0.1)) n_flight with
  | some e =>
    rw [throughput_cal_error hc] at hv
    exact absurd hv (by simp)
  | none =>
    rw [throughput_cal_ok hc] at hv
    have hveq := (Except.ok.inj hv).symm
    rw [hveq, hlin]

/-- Claim C2 witness at `(200, 10, 800, rpm = 7)`. -/
theorem claim_C2_witness :
    ∃ v, throughput_cal 200 10 800 7 none none 1 = .ok v ∧
      v = pyRound 2 (((7 : ℚ) : ℝ) * throughput_raw ((200 : ℚ) : ℝ) ((10 : ℚ) : ℝ)
        ((800 : ℚ) : ℝ) 1 (((none : Option ℚ).getD 200 : ℚ) : ℝ)
        (((none : Option ℚ).getD (200 * 0.1) : ℚ) : ℝ) ((1 : ℤ) : ℝ)) := by
  have hok : throughput_cal 200 10 800 7 none none 1 =
      .ok (pyRound 2 (throughput_raw ((200 : ℚ) : ℝ) ((10 : ℚ) : ℝ) ((800 : ℚ) : ℝ)
        ((7 : ℚ) : ℝ) (((none : Option ℚ).getD 200 : ℚ) : ℝ)
        (((none : Option ℚ).getD (200 * 0.1) : ℚ) : ℝ) ((1 : ℤ) : ℝ))) :=
    throughput_cal_ok (by norm_num [throughput_check])
  exact ⟨_, hok, claim_C2.2 200 10 800 7 none none 1 _ hok⟩

/-- Claim C3: the shape factor computed inside `throughput_cal` equals
`16w/(π³·d)` times the sum over exactly the 13 odd harmonics
`i ∈ {1, 3, ..., 25}` of `(1/i³)·tanh(i·π·d/(2w))`; the index list is
exactly the first 13 odd numbers, so no further terms are computed. -/
theorem claim_C3 :
    (∀ w d : ℝ, (16 * w) / (π ^ 3 * d) * fdSum d w =
      (16 * w) / (π ^ 3 * d) *
        ∑ j ∈ Finset.range 13, (1 / ((2 * j + 1 : ℕ) : ℝ) ^ 3) *
          Real.tanh (((2 * j + 1 : ℕ) : ℝ) * π * d / (2 * w))) ∧
    f_d_idx = (List.range 13).map (fun j => 2 * j + 1) ∧ f_d_idx.length = 13 := by
  refine ⟨?_, by rfl, by rfl⟩
  intro w d
  congr 1

set_option maxHeartbeats 1600000 in
/-- Claim C5: `throughput_cal` accepts `depth` exactly at 1% and at 30% of
`size` (given the other checks pass) and rejects `depth` strictly below 1%
or strictly above 30% of `size` with the `ValueError` message naming the
channel depth. -/
theorem claim_C5 :
    ∀ (size depth density rpm : ℚ) (pitch w_flight : Option ℚ) (n_flight : ℤ),
      (depth < size * 0.01 ∨ depth > size * 0.3 →
        throughput_cal size depth density rpm pitch w_flight n_flight = .error
          "Channel depth is too shallow(<1% of screw size) to be used for extrusion screw" ∨
        throughput_cal size depth density rpm pitch w_flight n_flight = .error
          "Channel depth is too deep(>30% of screw size) to be used for extrusion screw") ∧
      (5 ≤ size → size ≤ 500 → 300 ≤ density → density ≤ 3000 →
        size * 0.2 ≤ pitch.getD size → pitch.getD size ≤ size * 2.5 →
        size * 0.01 ≤ w_flight.getD (size * 0.1) → w_flight.getD (size * 0.1) ≤ size * 0.7 →
        (n_flight = 1 ∨ n_flight = 2) → depth = size * 0.01 →
        ∃ y, throughput_cal size depth density rpm pitch w_flight n_flight = .ok y) ∧
      (5 ≤ size → size ≤ 500 → 300 ≤ density → density ≤ 3000 →
        size * 0.2 ≤ pitch.getD size → pitch.getD size ≤ size * 2.5 →
        size * 0.01 ≤ w_flight.getD (size * 0.1) → w_flight.getD (size * 0.1) ≤ size * 0.7 →
        (n_flight = 1 ∨ n_flight = 2) → depth = size * 0.3 →
        ∃ y, throughput_cal size depth density rpm pitch w_flight n_flight = .ok y) := by
  intro size depth density rpm pitch w_flight n_flight
  refine ⟨?_, ?_, ?_⟩
  · intro h
    by_cases hlt : depth < size * 0.01
    · exact Or.inl (throughput_cal_error (by simp only [throughput_check, if_pos hlt]))
    · refine Or.inr (throughput_cal_error ?_)
      rcases h with h | h
      · exact absurd h hlt
      · simp only [throughput_check]
        rw [if_neg hlt, if_pos h]
  · intro h1 h2 h3 h4 h5 h6 h7 h8 h9 h10
    refine ⟨_, throughput_cal_ok ?_⟩
    simp only [throughput_check]
    split_ifs with c1 c2 c3 c4 c5 c6 c7 c8 c9 c10 c11 <;>
      first
        | rfl
        | (exfalso; first
            | exact c11 h9
            | linarith [h10, h1, h2, h3, h4, h5, h6, h7, h8])
  · intro h1 h2 h3 h4 h5 h6 h7 h8 h9 h10
    refine ⟨_, throughput_cal_ok ?_⟩
    simp only [throughput_check]
    split_ifs with c1 c2 c3 c4 c5 c6 c7 c8 c9 c10 c11 <;>
      first
        | rfl
        | (exfalso; first
            | exact c11 h9
            | linarith [h10, h1, h2, h3, h4, h5, h6, h7, h8])

/-- Claim C5 witness: at `size = 200` a depth of 1 mm (0.5% of size) is
rejected with the shallow-channel message, 61 mm (30.5%) with the
deep-channel message, and the boundary depths 2 mm (1%) and 60 mm (30%)
are accepted. -/
theorem claim_C5_witness :
    (throughput_cal 200 1 800 1 none none 1 = .error
      "Channel depth is too shallow(<1% of screw size) to be used for extrusion screw" ∨
     throughput_cal 200 1 800 1 none none 1 = .error
      "Channel depth is too deep(>30% of screw size) to be used for extrusion screw") ∧
    (throughput_cal 200 61 800 1 none none 1 = .error
      "Channel depth is too shallow(<1% of screw size) to be used for extrusion screw" ∨
     throughput_cal 200 61 800 1 none none 1 = .error
      "Channel depth is too deep(>30% of screw size) to be used for extrusion screw") ∧
    (∃ y, throughput_cal 200 2 800 1 none none 1 = .ok y) ∧
    (∃ y, throughput_cal 200 60 800 1 none none 1 = .ok y) := by
  refine ⟨(claim_C5 200 1 800 1 none none 1).1 (Or.inl (by norm_num)),
    (claim_C5 200 61 800 1 none none 1).1 (Or.inr (by norm_num)),
    (claim_C5 200 2 800 1 none none 1).2.1 (by norm_num) (by norm_num) (by norm_num)
      (by norm_num) (by norm_num [Option.getD]) (by norm_num [Option.getD])
      (by norm_num [Option.getD]) (by norm_num [Option.getD]) (by norm_num) (by norm_num),
    (claim_C5 200 60 800 1 none none 1).2.2 (by norm_num) (by norm_num) (by norm_num)
      (by norm_num) (by norm_num [Option.getD]) (by norm_num [Option.getD])
      (by norm_num [Option.getD]) (by norm_num [Option.getD]) (by norm_num) (by norm_num)⟩

set_option maxHeartbeats 1600000 in
/-- Claim C10: `throughput_cal` enforces the screw-size band `[5, 500]`:
with the other checks satisfied, `size < 5` and `size > 500` raise the
corresponding `ValueError`, the boundary sizes 5 and 500 are accepted, and
every successful call has `5 ≤ size ≤ 500`. -/
theorem claim_C10 :
    ∀ (size depth density rpm : ℚ) (pitch w_flight : Option ℚ) (n_flight : ℤ),
      (size * 0.01 ≤ depth → depth ≤ size * 0.3 → size < 5 →
        throughput_cal size depth density rpm pitch w_flight n_flight =
          .error "Screw size is too small!!") ∧
      (size * 0.01 ≤ depth → depth ≤ size * 0.3 → size > 500 →
        throughput_cal size depth density rpm pitch w_flight n_flight =
          .error "Screw size is too big!!") ∧
      (size * 0.01 ≤ depth → depth ≤ size * 0.3 → 300 ≤ density → density ≤ 3000 →
        size * 0.2 ≤ pitch.getD size → pitch.getD size ≤ size * 2.5 →
        size * 0.01 ≤ w_flight.getD (size * 0.1) → w_flight.getD (size * 0.1) ≤ size * 0.7 →
        (n_flight = 1 ∨ n_flight = 2) → (size = 5 ∨ size = 500) →
        ∃ y, throughput_cal size depth density rpm pitch w_flight n_flight = .ok y) ∧
      (∀ v, throughput_cal size depth density rpm pitch w_flight n_flight = .ok v →
        5 ≤ size ∧ size ≤ 500) := by
  intro size depth density rpm pitch w_flight n_flight
  refine ⟨?_, ?_, ?_, ?_⟩
  · intro h1 h2 h3
    apply throughput_cal_error
    simp only [throughput_check]
    rw [if_neg (by linarith), if_neg (by linarith), if_pos h3]
  · intro h1 h2 h3
    apply throughput_cal_error
    simp only [throughput_check]
    rw [if_neg (by linarith), if_neg (by linarith), if_neg (by linarith), if_pos h3]
  · intro h1 h2 h3 h4 h5 h6 h7 h8 h9 h10
    refine ⟨_, throughput_cal_ok ?_⟩
    simp only [throughput_check]
    have hs5 : (5 : ℚ) ≤ size := by rcases h10 with rfl | rfl <;> norm_num
    have hs500 : size ≤ 500 := by rcases h10 with rfl | rfl <;> norm_num
    split_ifs with c1 c2 c3 c4 c5 c6 c7 c8 c9 c10 c11 <;>
      first
        | rfl
        | (exfalso; first
            | exact c11 h9
            | linarith [h1, h2, h3, h4, h5, h6, h7, h8, hs5, hs500])
  · intro v hv
    have hchk : throughput_check size depth density (pitch.getD size)
        (w_flight.getD (size * 0.1)) n_flight = none := by
      cases hc : throughput_check size depth density (pitch.getD size)
          (w_flight.getD (size * 0.1)) n_flight with
      | none => rfl
      | some e =>
        rw [throughput_cal_error hc] at hv
        exact absurd hv (by simp)
    simp only [throughput_check] at hchk
    split_ifs at hchk with c1 c2 c3 c4 c5 c6 c7 c8 c9 c10 c11
    exact ⟨by linarith [not_lt.1 c3], by linarith [not_lt.1 c4]⟩

/-- Claim C10 witness: size 4 is rejected as too small, 501 as too big,
and the boundary sizes 5 and 500 are accepted; from the successful call at
size 5 the band membership follows. -/
theorem claim_C10_witness :
    throughput_cal 4 (1 / 5) 800 1 none none 1 = .error "Screw size is too small!!" ∧
    throughput_cal 501 10 800 1 none none 1 = .error "Screw size is too big!!" ∧
    (∃ y, throughput_cal 5 (1 / 5) 800 1 none none 1 = .ok y) ∧
    (∃ y, throughput_cal 500 10 800 1 none none 1 = .ok y) ∧
    ((5 : ℚ) ≤ 500 ∧ (500 : ℚ) ≤ 500) := by
  obtain ⟨y, hy⟩ := (claim_C10 500 10 800 1 none none 1).2.2.1 (by norm_num) (by norm_num)
    (by norm_num) (by norm_num) (by norm_num [Option.getD]) (by norm_num [Option.getD])
    (by norm_num [Option.getD]) (by norm_num [Option.getD]) (by norm_num) (by norm_num)
  refine ⟨(claim_C10 4 (1 / 5) 800 1 none none 1).1 (by norm_num) (by norm_num) (by norm_num),
    (claim_C10 501 10 800 1 none none 1).2.1 (by norm_num) (by norm_num) (by norm_num),
    (claim_C10 5 (1 / 5) 800 1 none none 1).2.2.1 (by norm_num) (by norm_num) (by norm_num)
      (by norm_num) (by norm_num [Option.getD]) (by norm_num [Option.getD])
      (by norm_num [Option.getD]) (by norm_num [Option.getD]) (by norm_num) (by norm_num),
    ⟨y, hy⟩, (claim_C10 500 10 800 1 none none 1).2.2.2 y hy⟩

/-- Claim C8 counterexample: contrary to the claim that the two
implementations round at inconsistent places and differ on some valid
input, there is no input at all on which the validated `throughput_cal`
succeeds and the legacy `extrucal.throughput` returns a different value —
both round the identical arithmetic to 2 decimals. -/
theorem claim_C8_counterexample :
    ¬ ∃ (size depth density rpm : ℚ) (pitch w_flight : Option ℚ) (n_flight : ℤ) (v : ℝ),
        throughput_cal size depth density rpm pitch w_flight n_flight = .ok v ∧
        extrucal_throughput size depth density rpm pitch w_flight n_flight ≠ v := by
  rintro ⟨size, depth, density, rpm, pitch, w_flight, n_flight, v, hok, hne⟩
  cases hc : throughput_check size depth density (pitch.getD size)
      (w_flight.getD (size * 0.1)) n_flight with
  | some e =>
    rw [throughput_cal_error hc] at hok
    exact absurd hok (by simp)
  | none =>
    rw [throughput_cal_ok hc] at hok
    exact hne ((Except.ok.inj hok) ▸ rfl)

/-- Claim C8 (amended): both implementations of the throughput formula
round to 2 decimals at the same place — `extrucal.throughput` always
returns the 2-decimal rounding of the shared raw formula, and on every
input accepted by the validated `extrusion.throughput_cal` the two return
equal values; the duplicate differs only in lacking validation. -/
theorem claim_C8 :
    (∀ (size depth density rpm : ℚ) (pitch w_flight : Option ℚ) (n_flight : ℤ),
      extrucal_throughput size depth density rpm pitch w_flight n_flight =
        pyRound 2 (throughput_raw size depth density rpm (pitch.getD size)
          (w_flight.getD (size * 0.1)) n_flight)) ∧
    (∀ (size depth density rpm : ℚ) (pitch w_flight : Option ℚ) (n_flight : ℤ) (v : ℝ),
      throughput_cal size depth density rpm pitch w_flight n_flight = .ok v →
      extrucal_throughput size depth density rpm pitch w_flight n_flight = v) := by
  refine ⟨fun _ _ _ _ _ _ _ => rfl, ?_⟩
  intro size depth density rpm pitch w_flight n_flight v hok
  cases hc : throughput_check size depth density (pitch.getD size)
      (w_flight.getD (size * 0.1)) n_flight with
  | some e =>
    rw [throughput_cal_error hc] at hok
    exact absurd hok (by simp)
  | none =>
    rw [throughput_cal_ok hc] at hok
    exact (Except.ok.inj hok) ▸ rfl

/-- Claim C8 witness: at `(200, 10, 800, rpm = 1)` with defaults, the
legacy implementation returns exactly the value the validated one
succeeds with. -/
theorem claim_C8_witness :
    extrucal_throughput 200 10 800 1 none none 1 =
      pyRound 2 (throughput_raw ((200 : ℚ) : ℝ) ((10 : ℚ) : ℝ) ((800 : ℚ) : ℝ)
        ((1 : ℚ) : ℝ) (((none : Option ℚ).getD 200 : ℚ) : ℝ)
        (((none : Option ℚ).getD (200 * 0.1) : ℚ) : ℝ) ((1 : ℤ) : ℝ)) :=
  claim_C8.2 200 10 800 1 none none 1 _
    (throughput_cal_ok (by norm_num [throughput_check]))

/-- Claim C6: `cable_cal` returns the annular insulation area
`π·((outer_d/2)² − ((outer_d − 2·thickness)/2)²)/10⁶` times `l_speed·60`
times `s_density`, rounded to 3 decimals — in particular
`cable_cal(10, 2, 100, 1000) = 301.593` — while the screw throughput
`throughput_cal` rounds its result to 2 decimals. -/
theorem claim_C6 :
    cable_cal 10 2 100 1000 = .ok ((301.593 : ℝ)) ∧
    (∀ outer_d thickness l_speed s_density : ℝ,
      cable_raw outer_d thickness l_speed s_density =
        π * ((outer_d / 2) ^ 2 - ((outer_d - 2 * thickness) / 2) ^ 2) / 1000000 *
          (l_speed * 60) * s_density) ∧
    (∀ (outer_d thickness l_speed s_density : ℚ) (v : ℝ),
      cable_cal outer_d thickness l_speed s_density = .ok v →
      v = pyRound 3 (cable_raw outer_d thickness l_speed s_density)) ∧
    (∀ (size depth density rpm : ℚ) (pitch w_flight : Option ℚ) (n_flight : ℤ) (v : ℝ),
      throughput_cal size depth density rpm pitch w_flight n_flight = .ok v →
      v = pyRound 2 (throughput_raw size depth density rpm (pitch.getD size)
        (w_flight.getD (size * 0.1)) n_flight)) := by
  refine ⟨?_, ?_, ?_, ?_⟩
  · rw [cable_cal_ok (by norm_num [cable_check])]
    have h96 : cable_raw ((10 : ℚ) : ℝ) ((2 : ℚ) : ℝ) ((100 : ℚ) : ℝ) ((1000 : ℚ) : ℝ) =
        96 * π := by
      simp only [cable_raw]
      push_cast
      ring
    rw [h96, pyRound_eq (m := 301593) ?lo ?hi]
    · norm_num
    case lo =>
      have h := Real.pi_gt_d20
      norm_num at h ⊢
      linarith
    case hi =>
      have h := Real.pi_lt_d20
      norm_num at h ⊢
      linarith
  · intro outer_d thickness l_speed s_density
    simp only [cable_raw]
    ring
  · intro outer_d thickness l_speed s_density v hv
    cases hc : cable_check outer_d thickness s_density with
    | some e =>
      rw [cable_cal_error hc] at hv
      exact absurd hv (by simp)
    | none =>
      rw [cable_cal_ok hc] at hv
      exact (Except.ok.inj hv).symm
  · intro size depth density rpm pitch w_flight n_flight v hv
    cases hc : throughput_check size depth density (pitch.getD size)
        (w_flight.getD (size * 0.1)) n_flight with
    | some e =>
      rw [throughput_cal_error hc] at hv
      exact absurd hv (by simp)
    | none =>
      rw [throughput_cal_ok hc] at hv
      exact (Except.ok.inj hv).symm

/-- Claim C6 witness: the concrete 3-decimal value equals the rounding of
the raw cable formula at `(10, 2, 100, 1000)`. -/
theorem claim_C6_witness :
    (301.593 : ℝ) = pyRound 3 (cable_raw ((10 : ℚ) : ℝ) ((2 : ℚ) : ℝ) ((100 : ℚ) : ℝ)
      ((1000 : ℚ) : ℝ)) :=
  claim_C6.2.2.1 10 2 100 1000 _ claim_C6.1


lemma cable_sizes_default : cable_sizes 20 100 20 = [20, 40, 60, 80, 100] := by
  rw [cable_sizes, arange]
  norm_num
  rw [show Int.toNat 5 = 5 from rfl, show List.range 5 = [0, 1, 2, 3, 4] from rfl]
  norm_num

lemma cable_speeds_default : cable_speeds 1 10 1 = [1, 2, 3, 4, 5, 6, 7, 8, 9, 10] := by
  rw [cable_speeds, arange]
  norm_num
  rw [show Int.toNat 10 = 10 from rfl,
    show List.range 10 = [0, 1, 2, 3, 4, 5, 6, 7, 8, 9] from rfl]
  norm_num [pyRoundQ]

set_option maxHeartbeats 4000000 in
lemma rawZ_bounds :
    (0 : ℝ) ≤ throughput_raw 5 (1 / 20) 300 1 5 (1 / 2) 1 ∧
    throughput_raw 5 (1 / 20) 300 1 5 (1 / 2) 1 < 1 / 200 := by
  have hcbL := cosArctanLB_le (r := 1) ((5 : ℝ)) (s := (5 : ℝ))
    (by norm_num) (by norm_num) (by push_cast; norm_num)
  have hcbU := le_cosArctanUB (r := 1) ((5 : ℝ)) (s := (5 : ℝ))
    (by norm_num) (by norm_num) (by push_cast; norm_num)
  have hccL := cosArctanLB_le (r := (50 / 49)) ((5 : ℝ)) (s := (5 - (1 / 20) * 2 : ℝ))
    (by norm_num) (by norm_num) (by push_cast; norm_num)
  have hccU := le_cosArctanUB (r := (50 / 49)) ((5 : ℝ)) (s := (5 - (1 / 20) * 2 : ℝ))
    (by norm_num) (by norm_num) (by push_cast; norm_num)
  set cb := Real.cos (Real.arctan ((5 : ℝ) / (π * 5))) with hcb_def
  set cc := Real.cos (Real.arctan ((5 : ℝ) / (π * (5 - (1 / 20) * 2)))) with hcc_def
  set aw := avgW 5 (1 / 20) 5 (1 / 2) 1 with haw_def
  have haw : aw = 5 / 1 * (cb + cc) / 2 - (1 / 2) := by
    rw [haw_def, avgW_eq]
  have hawL : (((5 / 1) * (cosArctanLB 1 + cosArctanLB (50 / 49)) / 2 - (1 / 2) : ℚ) : ℝ) ≤ aw := by
    rw [haw]
    push_cast
    linarith
  have hawU : aw ≤ (((5 / 1) * (cosArctanUB 1 + cosArctanUB (50 / 49)) / 2 - (1 / 2) : ℚ) : ℝ) := by
    rw [haw]
    push_cast
    linarith
  have hwL0 : (0 : ℚ) < (5 / 1) * (cosArctanLB 1 + cosArctanLB (50 / 49)) / 2 - (1 / 2) := by
    norm_num [cosArctanLB, sqrtUBq, newtonStep, truncDown, piLq]
  have hSL := SLBq_le_fdSum (d := (1 / 20)) (aw) (by norm_num) hwL0 hawL hawU
  have hSU := fdSum_le_SUBq (d := (1 / 20)) (aw) (by norm_num) hwL0 hawL hawU
    (by norm_num [piUq, cosArctanLB, sqrtUBq, newtonStep, truncDown, piLq])
  have hcastd : (((1 / 20) : ℚ) : ℝ) = ((1 / 20) : ℝ) := by norm_num
  rw [hcastd] at hSL hSU
  have hraw : throughput_raw 5 (1 / 20) 300 1 5 (1 / 2) 1 =
      (9 / 12500) * (cb * aw ^ 2 * fdSum (1 / 20) aw) / π ^ 2 := by
    rw [throughput_raw_eq _ _ _ _ _ _ _ (by norm_num)]
    rw [← haw_def, ← hcb_def]
    ring
  have hprod := interval_product (((9 / 12500) : ℝ)) (cb) (aw)
    (fdSum (1 / 20) aw) (π)
    (((cosArctanLB 1 : ℚ) : ℝ)) (((cosArctanUB 1 : ℚ) : ℝ))
    ((((5 / 1) * (cosArctanLB 1 + cosArctanLB (50 / 49)) / 2 - (1 / 2) : ℚ) : ℝ))
    ((((5 / 1) * (cosArctanUB 1 + cosArctanUB (50 / 49)) / 2 - (1 / 2) : ℚ) : ℝ))
    (((SLBq (1 / 20) ((5 / 1) * (cosArctanUB 1 + cosArctanUB (50 / 49)) / 2 - (1 / 2)) : ℚ) : ℝ))
    (((SUBq (1 / 20) ((5 / 1) * (cosArctanLB 1 + cosArctanLB (50 / 49)) / 2 - (1 / 2)) : ℚ) : ℝ))
    (((piLq : ℚ) : ℝ)) (((piUq : ℚ) : ℝ))
    (by norm_num) hcbL hcbU hawL hawU hSL hSU piLq_le_pi pi_le_piUq
    (by exact_mod_cast (by norm_num [cosArctanLB, sqrtUBq, newtonStep, truncDown, piLq] :
      (0 : ℚ) ≤ cosArctanLB 1))
    (by exact_mod_cast hwL0.le)
    (fdSum_nonneg (by norm_num) (lt_of_lt_of_le (by exact_mod_cast hwL0) hawL))
    (by exact_mod_cast piLq_pos)
  rw [hraw]
  constructor
  · refine le_trans ?_ hprod.2
    have hq : (0 : ℚ) ≤ (9 / 12500) *
        (cosArctanLB 1 * ((5 / 1) * (cosArctanLB 1 + cosArctanLB (50 / 49)) / 2 - (1 / 2)) ^ 2 *
          SLBq (1 / 20) ((5 / 1) * (cosArctanUB 1 + cosArctanUB (50 / 49)) / 2 - (1 / 2))) / piUq ^ 2 := by
      norm_num [SLBq, f_d_idx, tanhLBq, expLBq, truncDown, truncUp, expTaylor,
        cosArctanLB, cosArctanUB, sqrtUBq, sqrtLBq, newtonStep, piLq, piUq,
        Finset.sum_range_succ, Nat.factorial]
    have hlift := (Rat.cast_le (K := ℝ)).2 hq
    push_cast at hlift
    push_cast
    convert hlift using 2
  · refine lt_of_le_of_lt hprod.1 ?_
    have hq : (9 / 12500) *
        (cosArctanUB 1 * ((5 / 1) * (cosArctanUB 1 + cosArctanUB (50 / 49)) / 2 - (1 / 2)) ^ 2 *
          SUBq (1 / 20) ((5 / 1) * (cosArctanLB 1 + cosArctanLB (50 / 49)) / 2 - (1 / 2))) / piLq ^ 2 <
        (1 / 200 : ℚ) := by
      norm_num [SUBq, f_d_idx, tanhUBq, expUBq, expUB1, truncDown, truncUp, expTaylor,
        cosArctanLB, cosArctanUB, sqrtUBq, sqrtLBq, newtonStep, piLq, piUq,
        Finset.sum_range_succ, Nat.factorial]
    have hlift := (Rat.cast_lt (K := ℝ)).2 hq
    push_cast at hlift
    push_cast
    convert hlift using 2

lemma small_sizes_eval : cable_sizes 5 10 5 = [5, 10] := by
  rw [cable_sizes, arange]
  norm_num
  rw [show Int.toNat 2 = 2 from rfl, show List.range 2 = [0, 1] from rfl]
  norm_num

lemma small_sizes_eval2 : cable_sizes 20 40 20 = [20, 40] := by
  rw [cable_sizes, arange]
  norm_num
  rw [show Int.toNat 2 = 2 from rfl, show List.range 2 = [0, 1] from rfl]
  norm_num

lemma small_speeds_eval : cable_speeds 1 2 1 = [1, 2] := by
  rw [cable_speeds, arange]
  norm_num
  rw [show Int.toNat 2 = 2 from rfl, show List.range 2 = [0, 1] from rfl]
  norm_num [pyRoundQ]

lemma unit_throughput_zero :
    throughput_cal 5 (5 * (1 / 100)) (600 * (1 / 2)) 1 none none 1 = .ok 0 := by
  rw [throughput_cal_ok (by norm_num [throughput_check])]
  have harg : throughput_raw ((5 : ℚ) : ℝ) ((5 * (1 / 100) : ℚ) : ℝ)
      ((600 * (1 / 2) : ℚ) : ℝ) ((1 : ℚ) : ℝ)
      (((none : Option ℚ).getD 5 : ℚ) : ℝ)
      (((none : Option ℚ).getD (5 * 0.1) : ℚ) : ℝ) ((1 : ℤ) : ℝ) =
      throughput_raw 5 (1 / 20) 300 1 5 (1 / 2) 1 := by
    norm_num
  rw [harg, pyRound_eq (m := 0) (by norm_num; linarith [rawZ_bounds.1])
    (by norm_num; linarith [rawZ_bounds.2])]
  norm_num

lemma cable_table_small_ok :
    ∃ t, cable_table 10 2 600 (1 / 2) 1 2 1 5 10 5 (1 / 100) = .ok t := by
  have h2 : ∀ s ∈ cable_sizes 5 10 5,
      throughput_check s (s * (1 / 100)) (600 * (1 / 2)) s (s * 0.1) 1 = none := by
    rw [small_sizes_eval]
    intro s hs
    fin_cases hs <;> norm_num [throughput_check]
  obtain ⟨cols, htab, -, -⟩ := cable_table_ok 10 2 600 (1 / 2) 1 2 1 5 10 5 (1 / 100)
    (by norm_num [cable_table_check]) (by norm_num [cable_check]) h2
  exact ⟨_, htab⟩

lemma cable_plot_small_ok :
    ∃ t, cable_plot_data 10 2 600 (1 / 2) 1 2 1 5 10 5 (1 / 100) = .ok t := by
  apply cable_plot_data_ok 10 2 600 (1 / 2) 1 2 1 5 10 5 (1 / 100)
    (by norm_num [cable_table_check]) (by norm_num [cable_check])
  rw [small_sizes_eval]
  intro s hs
  fin_cases hs <;> norm_num [throughput_check]

/-- Claim C9: `cable_table` with `min_size = 20`, `max_size = 100`,
`delta_size = 20`, `min_l_speed = 1`, `max_l_speed = 10`,
`delta_l_speed = 1` returns a grid with exactly 5 rows — the extruder
sizes `[20, 40, 60, 80, 100]`, endpoints included, ascending — and exactly
10 columns, keyed by the line speeds 1 through 10 ascending, each column
holding the 5 row values. -/
theorem claim_C9 :
    ∃ cols, cable_table 10 2 1000 (85 / 100) 1 10 1 20 100 20 (5 / 100) =
        .ok ([20, 40, 60, 80, 100], cols) ∧
      cols.length = 10 ∧
      (∀ i l, ([1, 2, 3, 4, 5, 6, 7, 8, 9, 10] : List ℚ).get? i = some l →
        ∃ col, cols.get? i = some (l, col) ∧ col.length = 5) := by
  have h2 : ∀ s ∈ cable_sizes 20 100 20,
      throughput_check s (s * (5 / 100)) (1000 * (85 / 100)) s (s * 0.1) 1 = none := by
    rw [cable_sizes_default]
    intro s hs
    fin_cases hs <;> norm_num [throughput_check]
  obtain ⟨cols, htab, hlen, hget⟩ := cable_table_ok 10 2 1000 (85 / 100) 1 10 1 20 100 20
    (5 / 100) (by norm_num [cable_table_check]) (by norm_num [cable_check]) h2
  refine ⟨cols, ?_, ?_, ?_⟩
  · rw [← cable_sizes_default]
    exact htab
  · rw [hlen, cable_speeds_default]
    rfl
  · intro i l hi
    have hi2 : (cable_speeds 1 10 1).get? i = some l := by
      rw [cable_speeds_default]
      exact hi
    obtain ⟨col, hcol, hlen2, -⟩ := hget i l hi2
    refine ⟨col, hcol, ?_⟩
    rw [hlen2, cable_sizes_default]
    rfl

/-- Claim C4: every cell of the grid returned by `cable_table` equals
`round(cable_cal(outer_d, thickness, l, s_density) /
throughput_cal(s, s·depth_percent, s_density·density_ratio), 2)` for the
cell's line speed `l` and extruder size `s` — the required RPM is the
2-decimal rounding of the ratio of the required throughput to the unit
(rpm = 1) throughput, with no iterative solve. -/
theorem claim_C4 :
    ∀ (outer_d thickness s_density densRat depth_percent min_l_speed max_l_speed
        delta_l_speed min_size max_size delta_size : ℚ) (i j : ℕ) (l s : ℚ),
      cable_table_check outer_d thickness s_density densRat min_l_speed max_l_speed
        delta_l_speed min_size max_size delta_size depth_percent = none →
      cable_check outer_d thickness s_density = none →
      (∀ s2 ∈ cable_sizes min_size max_size delta_size,
        throughput_check s2 (s2 * depth_percent) (s_density * densRat) s2 (s2 * 0.1) 1 =
          none) →
      (cable_speeds min_l_speed max_l_speed delta_l_speed).get? i = some l →
      (cable_sizes min_size max_size delta_size).get? j = some s →
      ∃ cols col c t,
        cable_cal outer_d thickness l s_density = .ok c ∧
        throughput_cal s (s * depth_percent) (s_density * densRat) 1 none none 1 = .ok t ∧
        cable_table outer_d thickness s_density densRat min_l_speed max_l_speed
          delta_l_speed min_size max_size delta_size depth_percent =
          .ok (cable_sizes min_size max_size delta_size, cols) ∧
        cols.get? i = some (l, col) ∧
        col.get? j = some (pyRound 2 (c / t)) := by
  intro outer_d thickness s_density densRat depth_percent min_l_speed max_l_speed
    delta_l_speed min_size max_size delta_size i j l s hchk h1 h2 hi hj
  obtain ⟨cols, htab, -, hget⟩ := cable_table_ok outer_d thickness s_density densRat
    min_l_speed max_l_speed delta_l_speed min_size max_size delta_size depth_percent
    hchk h1 h2
  obtain ⟨col, hcol, -, hget2⟩ := hget i l hi
  refine ⟨cols, col, _, _, cable_cal_ok h1, throughput_cal_ok ?_, htab, hcol, hget2 j s hj⟩
  simpa using h2 s (List.get?_mem hj)

/-- Claim C4 witness: on the 2-by-2 grid with speeds `[1, 2]` and sizes
`[20, 40]`, the cell at the first speed and first size is the rounded
ratio of the two successful sub-calls. -/
theorem claim_C4_witness :
    ∃ cols col c t,
      cable_cal 10 2 1 1000 = .ok c ∧
      throughput_cal 20 (20 * (17 / 400)) (1000 * (17 / 20)) 1 none none 1 = .ok t ∧
      cable_table 10 2 1000 (17 / 20) 1 2 1 20 40 20 (17 / 400) =
        .ok (cable_sizes 20 40 20, cols) ∧
      cols.get? 0 = some (1, col) ∧
      col.get? 0 = some (pyRound 2 (c / t)) := by
  apply claim_C4 10 2 1000 (17 / 20) (17 / 400) 1 2 1 20 40 20 0 0 1 20
  · norm_num [cable_table_check]
  · norm_num [cable_check]
  · rw [small_sizes_eval2]
    intro s2 hs2
    fin_cases hs2 <;> norm_num [throughput_check]
  · rw [small_speeds_eval]
    rfl
  · rw [small_sizes_eval2]
    rfl

/-- Claim C7 counterexample: with validated inputs (outer diameter 10,
thickness 2, solid density 600, density ratio 0.5, sizes 5 and 10, depth
1% of size) the unit throughput at size 5 rounds to exactly 0, yet
`cable_table` raises no error whatsoever — in particular no DomainError —
contradicting the claim that a non-positive divisor makes the RPM
computation fail. -/
theorem claim_C7_counterexample :
    throughput_cal 5 (5 * (1 / 100)) (600 * (1 / 2)) 1 none none 1 = .ok 0 ∧
    cable_table_check 10 2 600 (1 / 2) 1 2 1 5 10 5 (1 / 100) = none ∧
    ¬ ∃ e, cable_table 10 2 600 (1 / 2) 1 2 1 5 10 5 (1 / 100) = .error e := by
  refine ⟨unit_throughput_zero, by norm_num [cable_table_check], ?_⟩
  rintro ⟨e, he⟩
  obtain ⟨t, ht⟩ := cable_table_small_ok
  rw [ht] at he
  exact absurd he (by simp)

/-- Claim C7 (amended): the code contains no zero-divisor guard — with
validated inputs the unit throughput used as the RPM divisor can round to
exactly 0 (size 5 mm, channel depth 1 %, melt density 300 kg/m³), and both
`cable_table` and `cable_plot` still return their grid without raising any
error (the numpy float division by the zero divisor propagates an infinite
RPM into the output rather than failing). -/
theorem claim_C7 :
    throughput_cal 5 (5 * (1 / 100)) (600 * (1 / 2)) 1 none none 1 = .ok 0 ∧
    (∃ t, cable_table 10 2 600 (1 / 2) 1 2 1 5 10 5 (1 / 100) = .ok t) ∧
    (∃ t, cable_plot_data 10 2 600 (1 / 2) 1 2 1 5 10 5 (1 / 100) = .ok t) :=
  ⟨unit_throughput_zero, cable_table_small_ok, cable_plot_small_ok⟩

end Extrucal
